import Mathlib

/-!
Shallow embedding of `src/assessment/assessment/item_manager.py` (the
`ItemManager` node: world state, pick-up/offload request handlers, the zone
acceptance rule, the placement generators, and the periodic control loop).

Modelling conventions:
* Python floats are modelled as exact rationals (`ℚ`); Euclidean-distance
  comparisons `math.dist p q < t` are phrased on squared distances
  (`dist2 p q < t ^ 2`), which is equivalent for non-negative thresholds.
* Python dicts are modelled as insertion-ordered association lists, so the
  iteration order of `for k, v in d.items()` is the list order and key
  insertion appends at the end.
* Each call to `random.*` is modelled by consuming one element of an explicit
  input stream; the unbounded rejection-sampling `while True:` loops become
  structural recursion over the stream, returning `none` when the modelled
  stream runs out (in Python the loop would simply keep drawing).
* Backend (gazebo service) requests are recorded in an effect list; the
  responses the node consumes (`get_model_list`, `get_entity_state`) are
  explicit inputs of the control-loop tick.
* A handler path on which Python raises (a `KeyError` on a dangling id) or
  diverges (sampling never succeeds) produces no response; both are modelled
  by an `Option` result of `none`.
-/

namespace ItemManager

/-- The `Colour` enum of the source (RED = 1, GREEN = 2, BLUE = 3). -/
inductive Colour where
  | RED
  | GREEN
  | BLUE
deriving DecidableEq

/-- `colour.name` of the Python enum member. -/
def Colour.name : Colour → String
  | .RED => "RED"
  | .GREEN => "GREEN"
  | .BLUE => "BLUE"

/-- `self.item_values`: RED ↦ 5, GREEN ↦ 10, BLUE ↦ 15. -/
def item_values : Colour → ℕ
  | .RED => 5
  | .GREEN => 10
  | .BLUE => 15

/-- The `ZoneLocation` enum of the source. -/
inductive ZoneLocation where
  | TOP_LEFT
  | TOP_RIGHT
  | BOTTOM_RIGHT
  | BOTTOM_LEFT
deriving DecidableEq

/-- Python `str()` of a `ZoneLocation` member, as produced by the f-string
`f"... at zone '{zone.location}'."`. -/
def ZoneLocation.pyStr : ZoneLocation → String
  | .TOP_LEFT => "ZoneLocation.TOP_LEFT"
  | .TOP_RIGHT => "ZoneLocation.TOP_RIGHT"
  | .BOTTOM_RIGHT => "ZoneLocation.BOTTOM_RIGHT"
  | .BOTTOM_LEFT => "ZoneLocation.BOTTOM_LEFT"

/-- `zone.items_returned`: a dict from the three colours to counts.  The init
code inserts the keys in the order RED, GREEN, BLUE (`for colour in Colour`),
so a three-field record with that scan order is a faithful representation. -/
structure ZoneCounts where
  red : ℕ
  green : ℕ
  blue : ℕ
deriving DecidableEq

/-- `zone.items_returned[colour]`. -/
def ZoneCounts.get : ZoneCounts → Colour → ℕ
  | z, .RED => z.red
  | z, .GREEN => z.green
  | z, .BLUE => z.blue

/-- `zone.items_returned[colour] += 1`. -/
def ZoneCounts.inc : ZoneCounts → Colour → ZoneCounts
  | z, .RED => { z with red := z.red + 1 }
  | z, .GREEN => { z with green := z.green + 1 }
  | z, .BLUE => { z with blue := z.blue + 1 }

/-- The scan in `allowed_drop_in_zone`: the first colour, in the dict
insertion order RED, GREEN, BLUE, whose count is `>= 1` (`match_colour`). -/
def ZoneCounts.firstNonzero (z : ZoneCounts) : Option Colour :=
  if 1 ≤ z.red then some .RED
  else if 1 ≤ z.green then some .GREEN
  else if 1 ≤ z.blue then some .BLUE
  else none

/-- The `Zone` class: location, centre coordinate, per-colour tallies. -/
structure Zone where
  location : ZoneLocation
  x : ℚ
  y : ℚ
  items_returned : ZoneCounts
deriving DecidableEq

/-- The `Item` class. -/
structure Item where
  x : ℚ
  y : ℚ
  colour : Colour
  cluster_id : String
deriving DecidableEq

/-- The `Cluster` class. -/
structure Cluster where
  x : ℚ
  y : ℚ
  colour : Colour
deriving DecidableEq

/-- The `Robot` class (`Robot(x, y)` starts with no held item). -/
structure Robot where
  x : ℚ
  y : ℚ
  item_held : Option String
  previous_item_held : Option String
deriving DecidableEq

/-- Dict lookup on an insertion-ordered association list. -/
def alookup {κ α : Type} [DecidableEq κ] : List (κ × α) → κ → Option α
  | [], _ => none
  | (k₀, v) :: rest, k => if k₀ = k then some v else alookup rest k

/-- In-place mutation of the value stored under a key (Python mutates the
object that the dict entry references). -/
def aupdate {κ α : Type} [DecidableEq κ] : List (κ × α) → κ → (α → α) → List (κ × α)
  | [], _, _ => []
  | (k₀, v) :: rest, k, f =>
    (if k₀ = k then (k₀, f v) else (k₀, v)) :: aupdate rest k f

/-- Squared Euclidean distance, the exact content of `math.dist` comparisons. -/
def dist2 (x₁ y₁ x₂ y₂ : ℚ) : ℚ := (x₁ - x₂) ^ 2 + (y₁ - y₂) ^ 2

/-- The mutable world state owned by the node. -/
structure State where
  first_run : Bool
  robots : List (String × Robot)
  items : List (String × Item)
  clusters : List (String × Cluster)
  zones : List (ZoneLocation × Zone)
  item_counter : ℕ
  cluster_counter : ℕ
deriving DecidableEq

/-- Zone construction in `__init__`, in source order TL, TR, BR, BL, gated by
the four zone parameters; every counter starts at 0. -/
def initZones (tl tr br bl : Bool) : List (ZoneLocation × Zone) :=
  (if tl then [(ZoneLocation.TOP_LEFT, ⟨.TOP_LEFT, 2.57, 2.5, ⟨0, 0, 0⟩⟩)] else []) ++
  (if tr then [(ZoneLocation.TOP_RIGHT, ⟨.TOP_RIGHT, 2.57, -2.46, ⟨0, 0, 0⟩⟩)] else []) ++
  (if br then [(ZoneLocation.BOTTOM_RIGHT, ⟨.BOTTOM_RIGHT, -3.42, -2.46, ⟨0, 0, 0⟩⟩)] else []) ++
  (if bl then [(ZoneLocation.BOTTOM_LEFT, ⟨.BOTTOM_LEFT, -3.42, 2.5, ⟨0, 0, 0⟩⟩)] else [])

/-- The state right after `__init__`: empty registries, `first_run = True`. -/
def initState (tl tr br bl : Bool) : State :=
  { first_run := true, robots := [], items := [], clusters := [],
    zones := initZones tl tr br bl, item_counter := 0, cluster_counter := 0 }

/-- `math.dist((robot.x, robot.y), (item.x, item.y)) < DISTANCE` with
`DISTANCE = 0.35`, on squared distances. -/
def withinPickup (robot : Robot) (item : Item) : Bool :=
  decide (dist2 robot.x robot.y item.x item.y < (35 / 100 : ℚ) ^ 2)

/-- The item scan of `pick_up_item`: the first item of the dict (in insertion
order) that is strictly within pick-up range. -/
def scanItems (robot : Robot) : List (String × Item) → Option (String × Item)
  | [] => none
  | (item_id, item) :: rest =>
    if withinPickup robot item then some (item_id, item) else scanItems robot rest

/-- `pick_up_item`: the responder returns `(success, message)` and the state
after the call (the only mutation is `robot.item_held = item_id` on success). -/
def pick_up_item (s : State) (robot_id : String) : Bool × String × State :=
  match alookup s.robots robot_id with
  | none => (false, "Unable to find robot_id '" ++ robot_id ++ "'", s)
  | some robot =>
    match robot.item_held with
    | some _ => (false, "Robot '" ++ robot_id ++ "' is already holding an item", s)
    | none =>
      match scanItems robot s.items with
      | some (item_id, _) =>
        (true, "Robot '" ++ robot_id ++ "' collected item successfully",
          { s with robots := aupdate s.robots robot_id fun r => { r with item_held := some item_id } })
      | none =>
        -- the source re-checks `robot.item_held is None` here; it always is,
        -- since the loop only sets it on the early-return path
        (false, "Robot '" ++ robot_id ++ "' unable to pick any item.", s)

/-- Membership test of `get_robot_zone` (`ZONE_SIZE = 0.5` square). -/
def inZone (robot : Robot) (z : Zone) : Bool :=
  decide (robot.x ≤ z.x + 1 / 2) && decide (z.x - 1 / 2 ≤ robot.x) &&
  decide (robot.y ≤ z.y + 1 / 2) && decide (z.y - 1 / 2 ≤ robot.y)

/-- `get_robot_zone`: first zone (dict insertion order) whose square contains
the robot; the key accompanies the zone object so that the caller can mirror
Python's mutation of the aliased dict entry. -/
def get_robot_zone (robot : Robot) : List (ZoneLocation × Zone) → Option (ZoneLocation × Zone)
  | [] => none
  | (loc, z) :: rest => if inZone robot z then some (loc, z) else get_robot_zone robot rest

/-- `self.items[robot.item_held].colour`, made total with `Option` (Python
raises a `KeyError` when the id dangles; that path is unreachable from the
initial state). -/
def heldItemColour (s : State) (robot : Robot) : Option Colour :=
  robot.item_held.bind fun item_id => (alookup s.items item_id).map (·.colour)

/-- `allowed_drop_in_zone`: `False` outside any zone; otherwise a zone with no
returned items accepts anything, and a zone with a non-zero tally only accepts
the first non-zero colour of the scan. -/
def allowed_drop_in_zone (s : State) (robot : Robot) (zone : Option Zone) : Bool :=
  match zone with
  | none => false
  | some z =>
    match z.items_returned.firstNonzero with
    | none => true
    | some match_colour =>
      match heldItemColour s robot with
      | some c => decide (match_colour = c)
      | none => false

/-- The obstacle test of `generate_cluster_location`: the four fixed cells. -/
def obstacle (x y : ℤ) : Bool :=
  (decide (x = 1) && decide (y = 1)) || (decide (x = 1) && decide (y = -1)) ||
  (decide (x = -1) && decide (y = 1)) || (decide (x = -1) && decide (y = -1))

/-- The cluster-overlap test of `generate_cluster_location`: exact coincidence
with, or squared distance at most 1 from, some existing cluster centre. -/
def clashes (clusters : List (String × Cluster)) (x y : ℤ) : Bool :=
  clusters.any fun p =>
    (decide (p.2.x = (x : ℚ)) && decide (p.2.y = (y : ℚ))) ||
    decide (dist2 p.2.x p.2.y (x : ℚ) (y : ℚ) ≤ 1)

/-- `generate_cluster_location`: the candidate stream models the
`random.randint` draws (the colour argument of the source only selects the
horizontal band the draws come from); the first candidate that hits no
obstacle cell and clashes with no existing cluster is returned together with
the unconsumed rest of the stream. -/
def generate_cluster_location (clusters : List (String × Cluster)) :
    List (ℤ × ℤ) → Option ((ℤ × ℤ) × List (ℤ × ℤ))
  | [] => none
  | (x, y) :: rest =>
    if obstacle x y then generate_cluster_location clusters rest
    else if clashes clusters x y then generate_cluster_location clusters rest
    else some ((x, y), rest)

/-- `generate_item_position`: each stream element is one polar draw already
reduced to its rounded cartesian offset `(round(r*cos a, 2), round(r*sin a, 2))`
from the cluster centre; a candidate is rejected when some existing item of the
same cluster is strictly within 0.3 of it. -/
def generate_item_position (clusters : List (String × Cluster)) (items : List (String × Item))
    (cluster_id : String) : List (ℚ × ℚ) → Option ((ℚ × ℚ) × List (ℚ × ℚ))
  | [] => none
  | (dx, dy) :: rest =>
    match alookup clusters cluster_id with
    | none => none
    | some cl =>
      let x := cl.x + dx
      let y := cl.y + dy
      if items.any fun p =>
          decide (p.2.cluster_id = cluster_id) &&
          decide (dist2 p.2.x p.2.y x y < (3 / 10 : ℚ) ^ 2) then
        generate_item_position clusters items cluster_id rest
      else
        some ((x, y), rest)

/-- One outbound backend request. -/
inductive BackendCall where
  | spawnEntity (name : String) (colour : Colour) (x y z : ℚ) (reference_frame : String)
  | getModelList
  | getEntityState (name : String)
  | setEntityState (name : String) (reference_frame : String) (x y z : ℚ)
deriving DecidableEq

/-- `spawn_item(name, x, y, colour, z)` always spawns in the world frame. -/
def spawnItemCall (name : String) (colour : Colour) (x y z : ℚ) : BackendCall :=
  .spawnEntity name colour x y z "world"

/-- Python `str()` of `robot.item_held` as interpolated by an f-string:
`None` renders as the four-character string `"None"`. -/
def pyStr : Option String → String
  | none => "None"
  | some v => v

/-- The response of `offload_item` together with the state after the call and
the backend requests it issued. -/
structure OffloadResult where
  success : Bool
  message : String
  state : State
  calls : List BackendCall
deriving DecidableEq

/-- `offload_item`.  The candidate stream feeds `generate_item_position` on
the zone-deposit path; `none` models the handler not returning (sampling
exhausted the modelled stream, or a `KeyError` on a dangling id). -/
def offload_item (s : State) (robot_id : String) (cands : List (ℚ × ℚ)) :
    Option OffloadResult :=
  match alookup s.robots robot_id with
  | none => some ⟨false, "Unable to find robot_id '" ++ robot_id ++ "'", s, []⟩
  | some robot =>
    match robot.item_held with
    | none =>
      some ⟨false, "Robot '" ++ robot_id ++ "' does not hold any items, so unable to offload.",
        s, []⟩
    | some item_id =>
      let zone := get_robot_zone robot s.zones
      if allowed_drop_in_zone s robot (zone.map (·.2)) = false then
        -- drop on the floor at the robot's local origin; the message is
        -- composed while `robot.item_held` is still set
        some ⟨true,
          "Item '" ++ item_id ++ "' held by robot '" ++ robot_id ++
            "' has been offloaded in the arena.",
          { s with robots := aupdate s.robots robot_id fun r => { r with item_held := none } },
          [.setEntityState item_id robot_id 0 0 0]⟩
      else
        match zone with
        | none => none  -- unreachable: `allowed_drop_in_zone` is false on `none`
        | some (loc, z) =>
          match alookup s.items item_id with
          | none => none  -- Python raises a KeyError here
          | some item =>
            match generate_item_position s.clusters s.items item.cluster_id cands with
            | none => none  -- the sampling loop exhausted the modelled stream
            | some ((x, y), _) =>
              -- the robot object is mutated before the message is composed,
              -- so the f-string interpolates the already-cleared field
              let robotAfter : Robot := { robot with item_held := none, previous_item_held := none }
              some ⟨true,
                "Item '" ++ pyStr robotAfter.item_held ++ "' held by robot '" ++ robot_id ++
                  "' has been offloaded at zone '" ++ z.location.pyStr ++ "'.",
                { s with
                  zones := aupdate s.zones loc fun zz =>
                    { zz with items_returned := zz.items_returned.inc item.colour },
                  items := aupdate s.items item_id fun it => { it with x := x, y := y },
                  robots := aupdate s.robots robot_id fun _ => robotAfter },
                [.setEntityState item_id "world" x y 0]⟩

/-- The sub-state that first-run seeding reads and writes (it touches no
robot and no zone). -/
structure SeedState where
  clusters : List (String × Cluster)
  items : List (String × Item)
  cluster_counter : ℕ
  item_counter : ℕ
deriving DecidableEq

/-- The random draws a control-loop tick may consume. -/
structure RandStreams where
  colourChoices : List Colour
  itemCounts : List ℕ
  clusterCands : List (ℤ × ℤ)
  itemCands : List (ℚ × ℚ)
deriving DecidableEq

/-- The colour resampling loop of seeding: draw colours until one is used by
fewer than two existing clusters. -/
def chooseColour (clusters : List (String × Cluster)) :
    List Colour → Option (Colour × List Colour)
  | [] => none
  | c :: rest =>
    if (clusters.filter fun p => decide (p.2.colour = c)).length < 2 then some (c, rest)
    else chooseColour clusters rest

/-- The inner loop of seeding: generate and register `n` items of a cluster;
`spawn_item` increments the item counter after the id was formed. -/
def seedItems : ℕ → String → Colour → SeedState → List (ℚ × ℚ) →
    Option (SeedState × List (ℚ × ℚ) × List BackendCall)
  | 0, _, _, st, cands => some (st, cands, [])
  | n + 1, cluster_id, colour, st, cands =>
    match generate_item_position st.clusters st.items cluster_id cands with
    | none => none
    | some ((x, y), rest) =>
      let item_id := "item" ++ toString st.item_counter
      let st' : SeedState :=
        { st with items := st.items ++ [(item_id, ⟨x, y, colour, cluster_id⟩)],
                  item_counter := st.item_counter + 1 }
      match seedItems n cluster_id colour st' rest with
      | none => none
      | some (st'', rest', calls) =>
        some (st'', rest', spawnItemCall item_id colour x y 0 :: calls)

/-- One iteration of the 6-cluster seeding loop. -/
def seedOne (st : SeedState) (rs : RandStreams) :
    Option (SeedState × RandStreams × List BackendCall) :=
  match chooseColour st.clusters rs.colourChoices with
  | none => none
  | some (colour, choices') =>
    let cluster_id := "cluster" ++ toString st.cluster_counter
    let st₁ : SeedState := { st with cluster_counter := st.cluster_counter + 1 }
    match generate_cluster_location st₁.clusters rs.clusterCands with
    | none => none
    | some ((x, y), ccands') =>
      let st₂ : SeedState := { st₁ with clusters := st₁.clusters ++ [(cluster_id, ⟨x, y, colour⟩)] }
      match rs.itemCounts with
      | [] => none
      | n :: counts' =>
        match seedItems n cluster_id colour st₂ rs.itemCands with
        | none => none
        | some (st₃, icands', calls) =>
          some (st₃,
            { colourChoices := choices', itemCounts := counts',
              clusterCands := ccands', itemCands := icands' },
            calls)

/-- The whole seeding loop (`for i in range(6)`). -/
def seedAll : ℕ → SeedState → RandStreams → Option (SeedState × RandStreams × List BackendCall)
  | 0, st, rs => some (st, rs, [])
  | k + 1, st, rs =>
    match seedOne st rs with
    | none => none
    | some (st', rs', calls) =>
      match seedAll k st' rs' with
      | none => none
      | some (st'', rs'', calls') => some (st'', rs'', calls ++ calls')

/-- `round(q, 2)` of the source, modelled as rounding to a multiple of 1/100. -/
def round2 (q : ℚ) : ℚ := ((round (q * 100) : ℤ) : ℚ) / 100

/-- `"robot" in model_name`. -/
def containsRobot (name : String) : Bool := decide (2 ≤ (name.splitOn "robot").length)

/-- Robot discovery: every listed model whose name mentions "robot" and is not
yet tracked is added with the default pose `Robot(0, 0)`. -/
def discoverRobots (robots : List (String × Robot)) : List String → List (String × Robot)
  | [] => robots
  | n :: rest =>
    if containsRobot n && (alookup robots n).isNone then
      discoverRobots (robots ++ [(n, ⟨0, 0, none, none⟩)]) rest
    else
      discoverRobots robots rest

/-- Pose synchronisation for one robot: query its backend pose, store it
rounded to 2 decimals, and if it holds an item, move that item onto the robot
and re-issue its pose slightly above the robot in the robot's frame. -/
def syncRobot (poses : String → ℚ × ℚ × ℚ) (robot_id : String)
    (robots : List (String × Robot)) (items : List (String × Item)) :
    List (String × Robot) × List (String × Item) × List BackendCall :=
  match alookup robots robot_id with
  | none => (robots, items, [])  -- unreachable: the id is drawn from the keys
  | some robot =>
    let pose := poses robot_id
    let rx := round2 pose.1
    let ry := round2 pose.2.1
    let robots' := aupdate robots robot_id fun r => { r with x := rx, y := ry }
    match robot.item_held with
    | none => (robots', items, [.getEntityState robot_id])
    | some item_id =>
      (robots',
       aupdate items item_id fun it => { it with x := rx, y := ry },
       [.getEntityState robot_id, .setEntityState item_id robot_id 0 0 (15 / 100)])

/-- The `for robot_id, robot in self.robots.items()` loop of the tick. -/
def syncAll (poses : String → ℚ × ℚ × ℚ) : List String →
    List (String × Robot) → List (String × Item) →
    List (String × Robot) × List (String × Item) × List BackendCall
  | [], robots, items => (robots, items, [])
  | robot_id :: rest, robots, items =>
    let one := syncRobot poses robot_id robots items
    let rest' := syncAll poses rest one.1 one.2.1
    (rest'.1, rest'.2.1, one.2.2 ++ rest'.2.2)

/-- One entry of the published `ItemHolders` message. -/
structure ItemHolderMsg where
  robot_id : String
  holding_item : Bool
  item_colour : String
  item_value : ℕ
deriving DecidableEq

/-- The holder record published for one robot. -/
def holderMsg (items : List (String × Item)) (robot_id : String) (robot : Robot) :
    ItemHolderMsg :=
  match robot.item_held with
  | none => ⟨robot_id, false, "", 0⟩
  | some item_id =>
    match alookup items item_id with
    | some item => ⟨robot_id, true, item.colour.name, item_values item.colour⟩
    | none => ⟨robot_id, true, "", 0⟩  -- Python raises a KeyError here

/-- The published `ItemLog` aggregate record. -/
structure ItemLogMsg where
  red_count : ℕ
  green_count : ℕ
  blue_count : ℕ
  total_count : ℕ
  red_value : ℕ
  green_value : ℕ
  blue_value : ℕ
  total_value : ℕ
deriving DecidableEq

/-- Sum of one colour's tally over all zones. -/
def sumZones (zones : List (ZoneLocation × Zone)) (c : Colour) : ℕ :=
  (zones.map fun p => p.2.items_returned.get c).sum

/-- The aggregate log computed at the end of each tick. -/
def itemLogMsg (zones : List (ZoneLocation × Zone)) : ItemLogMsg :=
  let rc := sumZones zones .RED
  let gc := sumZones zones .GREEN
  let bc := sumZones zones .BLUE
  { red_count := rc, green_count := gc, blue_count := bc,
    total_count := rc + gc + bc,
    red_value := rc * item_values .RED,
    green_value := gc * item_values .GREEN,
    blue_value := bc * item_values .BLUE,
    total_value := rc * item_values .RED + gc * item_values .GREEN + bc * item_values .BLUE }

/-- Inputs of one control-loop tick: the random draws, the backend's model
list, and the backend pose of every entity queried. -/
structure TickInput where
  streams : RandStreams
  model_names : List String
  poses : String → ℚ × ℚ × ℚ

/-- The `if self.first_run:` block of `control_loop`: run seeding once, and
return the seeding sub-state together with the spawn requests it issued. -/
def seedPhase (s : State) (rs : RandStreams) : Option (SeedState × List BackendCall) :=
  if s.first_run then
    match seedAll 6 ⟨s.clusters, s.items, s.cluster_counter, s.item_counter⟩ rs with
    | none => none
    | some (st, _, calls) => some (st, calls)
  else
    some (⟨s.clusters, s.items, s.cluster_counter, s.item_counter⟩, [])

/-- The remainder of `control_loop` after seeding: the "ready" marker spawn
(which goes through `spawn_item` and therefore bumps the item counter), robot
discovery, pose synchronisation, and the two telemetry publishes. -/
def afterSeed (s : State) (inp : TickInput) (st : SeedState) :
    State × List BackendCall × List ItemHolderMsg × ItemLogMsg :=
  let robots₁ := discoverRobots s.robots inp.model_names
  let sync := syncAll inp.poses (robots₁.map (·.1)) robots₁ st.items
  ({ first_run := false, robots := sync.1, items := sync.2.1, clusters := st.clusters,
     zones := s.zones, item_counter := st.item_counter + 1,
     cluster_counter := st.cluster_counter },
   spawnItemCall "ready" Colour.RED 0 0 (-(1 / 2)) :: BackendCall.getModelList :: sync.2.2,
   sync.1.map fun p => holderMsg sync.2.1 p.1 p.2,
   itemLogMsg s.zones)

/-- `control_loop`: one tick of the periodic 100 ms timer. -/
def control_loop (s : State) (inp : TickInput) :
    Option (State × List BackendCall × List ItemHolderMsg × ItemLogMsg) :=
  match seedPhase s inp.streams with
  | none => none
  | some (st, seedCalls) =>
    let rest := afterSeed s inp st
    some (rest.1, seedCalls ++ rest.2.1, rest.2.2)

/-- One pick-up request step. -/
def stepPick (s s' : State) : Prop := ∃ robot_id, (pick_up_item s robot_id).2.2 = s'

/-- One offload request step (the handler returned a response). -/
def stepOffload (s s' : State) : Prop :=
  ∃ robot_id cands res, offload_item s robot_id cands = some res ∧ res.state = s'

/-- One control-loop tick step. -/
def stepTick (s s' : State) : Prop :=
  ∃ inp out, control_loop s inp = some out ∧ out.1 = s'

/-- One step of the serialized world-state owner. -/
inductive Step : State → State → Prop
  | pick {s s' : State} : stepPick s s' → Step s s'
  | off {s s' : State} : stepOffload s s' → Step s s'
  | tick {s s' : State} : stepTick s s' → Step s s'

/-- Finitely many steps. -/
inductive Steps : State → State → Prop
  | refl {s : State} : Steps s s
  | tail {s s' s'' : State} : Steps s s' → Step s' s'' → Steps s s''

/-- Reachability from the post-`__init__` state of some zone configuration. -/
def Reachable (s : State) : Prop :=
  ∃ tl tr br bl, Steps (initState tl tr br bl) s

/-- The tally of one colour at one zone location (0 when the zone is absent). -/
def zoneCount (s : State) (loc : ZoneLocation) (c : Colour) : ℕ :=
  match alookup s.zones loc with
  | none => 0
  | some z => z.items_returned.get c

/-- At most one colour of the tally is non-zero. -/
def atMostOneColour (zc : ZoneCounts) : Prop :=
  ∀ c c', 1 ≤ zc.get c → 1 ≤ zc.get c' → c = c'

/-- The state invariant behind the zone lock: zone keys are unique (they are
created once, from distinct enum members) and each zone is committed to at
most one colour. -/
def ZoneInv (s : State) : Prop :=
  (s.zones.map Prod.fst).Nodup ∧ ∀ p ∈ s.zones, atMostOneColour p.2.items_returned

/- Concrete executions used below: a seeding tick, robot discovery ticks and
requests, assembled from explicit random/backend inputs. -/

/-- Random draws for one seeding tick: two clusters of each colour, three
items per cluster, all candidates accepted on first try. -/
def seedStreams : RandStreams :=
  { colourChoices := [.RED, .RED, .GREEN, .GREEN, .BLUE, .BLUE],
    itemCounts := [3, 3, 3, 3, 3, 3],
    clusterCands := [(-2, 0), (-2, 2), (0, 2), (0, -2), (2, 0), (2, 2)],
    itemCands := (List.replicate 6 [((0 : ℚ), (0 : ℚ)), (3 / 10, 0), (0, 3 / 10)]).flatten }

/-- A tick that draws nothing. -/
def emptyStreams : RandStreams := ⟨[], [], [], []⟩

/-- Junk default used only to name the payload of a tick already known to
return a result. -/
def dfltOut : State × List BackendCall × List ItemHolderMsg × ItemLogMsg :=
  (initState true true true true, [], [], itemLogMsg [])

/-- The start state with all four zones enabled. -/
def S0 : State := initState true true true true

/-- Input of the seeding tick: no models listed yet. -/
def inp1 : TickInput := ⟨seedStreams, [], fun _ => (0, 0, 0)⟩

/-- State after the seeding tick: 6 clusters, 18 items; `item0` sits at the
centre `(-2, 0)` of `cluster0`. -/
def S1 : State := ((control_loop S0 inp1).getD dfltOut).1

/-- A tick that discovers `robot1` and `robot2`, both reported at `(-2, 0)`,
the position of `item0`. -/
def inp2 : TickInput := ⟨emptyStreams, ["robot1", "robot2"], fun _ => (-2, 0, 0)⟩

/-- State after the discovery tick. -/
def S2 : State := ((control_loop S1 inp2).getD dfltOut).1

/-- State after `robot1` picks up (it collects `item0`). -/
def S3 : State := (pick_up_item S2 "robot1").2.2

/-- State after `robot2` also picks up: `item0` never moved, so the scan
assigns the same item a second time. -/
def S4 : State := (pick_up_item S3 "robot2").2.2

/-- A tick that discovers only `robot1` at `(-2, 0)`. -/
def inp2b : TickInput := ⟨emptyStreams, ["robot1"], fun _ => (-2, 0, 0)⟩

/-- State after discovering `robot1`. -/
def S2b : State := ((control_loop S1 inp2b).getD dfltOut).1

/-- State after `robot1` picks up `item0`. -/
def S3b : State := (pick_up_item S2b "robot1").2.2

/-- A tick that moves `robot1` to the centre of the top-left zone. -/
def inp3b : TickInput := ⟨emptyStreams, [], fun _ => (2.57, 2.5, 0)⟩

/-- State with `robot1` (holding `item0`) inside the top-left zone. -/
def S4b : State := ((control_loop S3b inp3b).getD dfltOut).1

/-- The response of offloading `item0` into the fresh top-left zone. -/
def offResB : OffloadResult := (offload_item S4b "robot1" [(0, 0)]).getD ⟨false, "", S4b, []⟩

/-- State after the first successful zone deposit: the top-left RED tally
is 1. -/
def S5b : State := offResB.state

/-- The top-left zone object of `S5b`. -/
def zTLb : Zone := (alookup S5b.zones .TOP_LEFT).getD ⟨.TOP_LEFT, 0, 0, ⟨0, 0, 0⟩⟩

/-- A small state: `r1` holds the red `item0`. -/
def sC3 : State :=
  { first_run := false, robots := [("r1", ⟨0, 0, some "item0", none⟩)],
    items := [("item0", ⟨0, 0, .RED, "cluster0"⟩)], clusters := [], zones := [],
    item_counter := 1, cluster_counter := 0 }

/-- A small state: `r1` with empty hands at distance 0.2 from the red
`item0`. -/
def sC7 : State :=
  { first_run := false, robots := [("r1", ⟨0, 0, none, none⟩)],
    items := [("item0", ⟨1 / 5, 0, .RED, "cluster0"⟩)], clusters := [], zones := [],
    item_counter := 1, cluster_counter := 0 }

/-- A small state: `r9` holds `item7` and stands outside every zone (no zone
is enabled). -/
def sC5 : State :=
  { first_run := false, robots := [("r9", ⟨0, 0, some "item7", none⟩)],
    items := [("item7", ⟨0, 0, .GREEN, "cluster3"⟩)], clusters := [], zones := [],
    item_counter := 8, cluster_counter := 4 }

/-- The response of the in-arena offload from `sC5`. -/
def resC5 : OffloadResult := (offload_item sC5 "r9" []).getD ⟨false, "", sC5, []⟩

/-- A small state: `r1` holds the red `item0` (of `cluster0` at `(-2, 0)`)
and stands at the centre of the fresh top-left zone. -/
def sC6 : State :=
  { first_run := false, robots := [("r1", ⟨2.57, 2.5, some "item0", none⟩)],
    items := [("item0", ⟨2.57, 2.5, .RED, "cluster0"⟩)],
    clusters := [("cluster0", ⟨-2, 0, .RED⟩)],
    zones := [(.TOP_LEFT, ⟨.TOP_LEFT, 2.57, 2.5, ⟨0, 0, 0⟩⟩)],
    item_counter := 1, cluster_counter := 1 }

/-- The response of the zone deposit from `sC6`. -/
def resC6 : OffloadResult := (offload_item sC6 "r1" [(0, 0)]).getD ⟨false, "", sC6, []⟩

/-- A small state: `r2` holds `item3`, `r3` is empty-handed, no zone. -/
def sC10 : State :=
  { first_run := false,
    robots := [("r2", ⟨1, 1, some "item3", none⟩), ("r3", ⟨0, 0, none, none⟩)],
    items := [("item3", ⟨1, 1, .BLUE, "cluster5"⟩)], clusters := [], zones := [],
    item_counter := 4, cluster_counter := 6 }

/-- The response of the in-arena offload from `sC10`. -/
def resC10 : OffloadResult := (offload_item sC10 "r2" []).getD ⟨false, "", sC10, []⟩

/-- A post-seeding state used to exercise one idle tick. -/
def sC9 : State :=
  { first_run := false, robots := [], items := [("item0", ⟨3, 3, .RED, "cluster0"⟩)],
    clusters := [("cluster0", ⟨3, 3, .RED⟩)], zones := initZones true true true true,
    item_counter := 7, cluster_counter := 6 }

/-- Input of the idle tick: the backend lists a new robot. -/
def inpC9 : TickInput := ⟨emptyStreams, ["robot9"], fun _ => (1, 1, 0)⟩

/-- Result of the idle tick from `sC9`. -/
def outC9 : State × List BackendCall × List ItemHolderMsg × ItemLogMsg :=
  (control_loop sC9 inpC9).getD dfltOut

/-! ### Association-list lemmas -/

theorem alookup_append_left {κ α : Type} [DecidableEq κ] {l₁ : List (κ × α)}
    (l₂ : List (κ × α)) {k : κ} {v : α} (h : alookup l₁ k = some v) :
    alookup (l₁ ++ l₂) k = some v := by
  induction l₁ with
  | nil => simp [alookup] at h
  | cons p rest ih =>
    obtain ⟨k₀, v₀⟩ := p
    by_cases hk : k₀ = k <;> simp_all [alookup]

theorem alookup_append_right {κ α : Type} [DecidableEq κ] {l₁ : List (κ × α)}
    (l₂ : List (κ × α)) {k : κ} (h : alookup l₁ k = none) :
    alookup (l₁ ++ l₂) k = alookup l₂ k := by
  induction l₁ with
  | nil => simp [alookup]
  | cons p rest ih =>
    obtain ⟨k₀, v₀⟩ := p
    by_cases hk : k₀ = k <;> simp_all [alookup]

theorem alookup_aupdate {κ α : Type} [DecidableEq κ] (l : List (κ × α)) (k k' : κ)
    (f : α → α) :
    alookup (aupdate l k f) k' = if k' = k then (alookup l k').map f else alookup l k' := by
  induction l with
  | nil => by_cases h : k' = k <;> simp [alookup, aupdate, h]
  | cons p rest ih =>
    obtain ⟨k₀, v₀⟩ := p
    rw [aupdate]
    by_cases h₀ : k₀ = k
    · rw [if_pos h₀]
      subst h₀
      by_cases h₁ : k₀ = k'
      · subst h₁
        simp [alookup]
      · have hk : ¬ k' = k₀ := fun hh => h₁ hh.symm
        simp [alookup, h₁, hk, ih]
    · rw [if_neg h₀]
      by_cases h₁ : k₀ = k'
      · subst h₁
        simp [alookup, h₀]
      · simp [alookup, h₀, h₁, ih]

theorem alookup_aupdate_ne {κ α : Type} [DecidableEq κ] (l : List (κ × α)) {k k' : κ}
    (f : α → α) (h : k' ≠ k) : alookup (aupdate l k f) k' = alookup l k' := by
  simp [alookup_aupdate, h]

theorem alookup_aupdate_self {κ α : Type} [DecidableEq κ] (l : List (κ × α)) (k : κ)
    (f : α → α) : alookup (aupdate l k f) k = (alookup l k).map f := by
  simp [alookup_aupdate]

theorem aupdate_keys {κ α : Type} [DecidableEq κ] (l : List (κ × α)) (k : κ) (f : α → α) :
    (aupdate l k f).map Prod.fst = l.map Prod.fst := by
  induction l with
  | nil => rfl
  | cons p rest ih =>
    obtain ⟨k₀, v₀⟩ := p
    by_cases hk : k₀ = k <;> simp [aupdate, hk, ih]

theorem mem_aupdate {κ α : Type} [DecidableEq κ] {l : List (κ × α)} {k : κ} {f : α → α}
    {p : κ × α} (h : p ∈ aupdate l k f) :
    ∃ q ∈ l, p = if q.1 = k then (q.1, f q.2) else q := by
  induction l with
  | nil => simp [aupdate] at h
  | cons q rest ih =>
    obtain ⟨k₀, v₀⟩ := q
    rw [aupdate] at h
    rcases List.mem_cons.mp h with h' | h'
    · exact ⟨(k₀, v₀), List.mem_cons_self _ _, h'⟩
    · obtain ⟨q, hq, hq'⟩ := ih h'
      exact ⟨q, List.mem_cons_of_mem _ hq, hq'⟩

theorem alookup_mem {κ α : Type} [DecidableEq κ] {l : List (κ × α)} {k : κ} {v : α}
    (h : alookup l k = some v) : (k, v) ∈ l := by
  induction l with
  | nil => simp [alookup] at h
  | cons p rest ih =>
    obtain ⟨k₀, v₀⟩ := p
    by_cases hk : k₀ = k
    · subst hk
      simp [alookup] at h
      simp [h]
    · simp [alookup, hk] at h
      exact List.mem_cons_of_mem _ (ih h)

theorem alookup_isSome_of_mem {κ α : Type} [DecidableEq κ] {l : List (κ × α)} {k : κ}
    {v : α} (h : (k, v) ∈ l) : ∃ w, alookup l k = some w := by
  induction l with
  | nil => cases h
  | cons p rest ih =>
    obtain ⟨k₀, v₀⟩ := p
    by_cases hk : k₀ = k
    · exact ⟨v₀, by simp [alookup, hk]⟩
    · rcases List.mem_cons.mp h with e | m
      · rw [Prod.mk.injEq] at e
        exact absurd e.1.symm hk
      · obtain ⟨w, hw⟩ := ih m
        exact ⟨w, by simp [alookup, hk, hw]⟩

theorem nodup_key_eq {κ α : Type} [DecidableEq κ] {l : List (κ × α)}
    (hnd : (l.map Prod.fst).Nodup) {k : κ} {v w : α}
    (h₁ : (k, v) ∈ l) (h₂ : (k, w) ∈ l) : v = w := by
  induction l with
  | nil => simp at h₁
  | cons p rest ih =>
    obtain ⟨k₀, v₀⟩ := p
    simp only [List.map_cons, List.nodup_cons] at hnd
    rcases List.mem_cons.mp h₁ with e₁ | m₁ <;> rcases List.mem_cons.mp h₂ with e₂ | m₂
    · rw [Prod.mk.injEq] at e₁ e₂
      exact e₁.2.trans e₂.2.symm
    · exfalso
      rw [Prod.mk.injEq] at e₁
      exact hnd.1 (e₁.1 ▸ (List.mem_map.mpr ⟨(k, w), m₂, rfl⟩))
    · exfalso
      rw [Prod.mk.injEq] at e₂
      exact hnd.1 (e₂.1 ▸ (List.mem_map.mpr ⟨(k, v), m₁, rfl⟩))
    · exact ih hnd.2 m₁ m₂

/-! ### Scan lemmas -/

theorem scanItems_eq_none {robot : Robot} {l : List (String × Item)}
    (h : ∀ p ∈ l, withinPickup robot p.2 = false) : scanItems robot l = none := by
  induction l with
  | nil => rfl
  | cons p rest ih =>
    obtain ⟨iid, it⟩ := p
    rw [scanItems]
    rw [h (iid, it) (List.mem_cons_self _ _)]
    exact ih fun q hq => h q (List.mem_cons_of_mem _ hq)

theorem scanItems_first {robot : Robot} (pre : List (String × Item)) {iid : String}
    {it : Item} (post : List (String × Item))
    (hpre : ∀ p ∈ pre, withinPickup robot p.2 = false) (hit : withinPickup robot it = true) :
    scanItems robot (pre ++ (iid, it) :: post) = some (iid, it) := by
  induction pre with
  | nil =>
    rw [List.nil_append, scanItems, hit]
    rfl
  | cons p rest ih =>
    obtain ⟨jid, jt⟩ := p
    rw [List.cons_append, scanItems]
    rw [hpre (jid, jt) (List.mem_cons_self _ _)]
    exact ih fun q hq => hpre q (List.mem_cons_of_mem _ hq)

theorem get_robot_zone_mem {robot : Robot} {l : List (ZoneLocation × Zone)}
    {loc : ZoneLocation} {z : Zone} (h : get_robot_zone robot l = some (loc, z)) :
    (loc, z) ∈ l := by
  induction l with
  | nil => simp [get_robot_zone] at h
  | cons p rest ih =>
    obtain ⟨loc₀, z₀⟩ := p
    rw [get_robot_zone] at h
    by_cases hz : inZone robot z₀
    · rw [if_pos hz] at h
      cases h
      exact List.mem_cons_self _ _
    · rw [if_neg hz] at h
      exact List.mem_cons_of_mem _ (ih h)

/-! ### Zone-tally lemmas -/

theorem ZoneCounts.get_inc (zc : ZoneCounts) (c₀ c : Colour) :
    (zc.inc c₀).get c = if c = c₀ then zc.get c + 1 else zc.get c := by
  cases c <;> cases c₀ <;> simp [ZoneCounts.inc, ZoneCounts.get]

theorem ZoneCounts.firstNonzero_none {zc : ZoneCounts} (h : zc.firstNonzero = none) :
    ∀ c, zc.get c = 0 := by
  rw [ZoneCounts.firstNonzero] at h
  split_ifs at h
  intro c
  cases c <;> simp [ZoneCounts.get] <;> omega

theorem ZoneCounts.firstNonzero_some_pos {zc : ZoneCounts} {m : Colour}
    (h : zc.firstNonzero = some m) : 1 ≤ zc.get m := by
  rw [ZoneCounts.firstNonzero] at h
  split_ifs at h with h₁ h₂ h₃ <;> cases h <;> simpa [ZoneCounts.get]

theorem ZoneCounts.firstNonzero_of_pos {zc : ZoneCounts} {c : Colour}
    (h : 1 ≤ zc.get c) : ∃ m, zc.firstNonzero = some m ∧ 1 ≤ zc.get m := by
  rcases hm : zc.firstNonzero with _ | m
  · exact absurd (ZoneCounts.firstNonzero_none hm c) (by omega)
  · exact ⟨m, rfl, ZoneCounts.firstNonzero_some_pos hm⟩

theorem atMostOneColour_inc {zc : ZoneCounts} {c₀ : Colour}
    (hz : atMostOneColour zc)
    (hcase : zc.firstNonzero = none ∨ zc.firstNonzero = some c₀) :
    atMostOneColour (zc.inc c₀) := by
  intro c c' hc hc'
  rw [ZoneCounts.get_inc] at hc hc'
  rcases hcase with hnone | hsome
  · have hall := ZoneCounts.firstNonzero_none hnone
    by_cases e : c = c₀ <;> by_cases e' : c' = c₀
    · exact e.trans e'.symm
    · rw [if_neg e'] at hc'
      exact absurd (hall c') (by omega)
    · rw [if_neg e] at hc
      exact absurd (hall c) (by omega)
    · rw [if_neg e] at hc
      exact absurd (hall c) (by omega)
  · have hpos : 1 ≤ zc.get c₀ := ZoneCounts.firstNonzero_some_pos hsome
    by_cases e : c = c₀ <;> by_cases e' : c' = c₀
    · exact e.trans e'.symm
    · rw [if_neg e'] at hc'
      exact absurd (hz c' c₀ hc' hpos) e'
    · rw [if_neg e] at hc
      exact absurd (hz c c₀ hc hpos) e
    · rw [if_neg e] at hc
      exact absurd (hz c c₀ hc hpos) e

/-! ### Effect of each operation on the zone registry -/

theorem pick_up_item_zones (s : State) (robot_id : String) :
    (pick_up_item s robot_id).2.2.zones = s.zones := by
  rw [pick_up_item]
  repeat' split
  all_goals rfl

theorem control_loop_state {s : State} {inp : TickInput}
    {out : State × List BackendCall × List ItemHolderMsg × ItemLogMsg}
    (h : control_loop s inp = some out) :
    ∃ st seedCalls, seedPhase s inp.streams = some (st, seedCalls) ∧
      out.1 = (afterSeed s inp st).1 := by
  rw [control_loop] at h
  rcases hs : seedPhase s inp.streams with _ | ⟨st, seedCalls⟩
  · rw [hs] at h
    cases h
  · rw [hs] at h
    cases h
    exact ⟨st, seedCalls, rfl, rfl⟩

theorem afterSeed_zones (s : State) (inp : TickInput) (st : SeedState) :
    (afterSeed s inp st).1.zones = s.zones := rfl

theorem control_loop_zones {s : State} {inp : TickInput}
    {out : State × List BackendCall × List ItemHolderMsg × ItemLogMsg}
    (h : control_loop s inp = some out) : out.1.zones = s.zones := by
  obtain ⟨st, seedCalls, _, hout⟩ := control_loop_state h
  rw [hout]
  rfl

/-! ### The three response paths of `offload_item` -/

theorem offload_item_unknown {s : State} {robot_id : String} (cands : List (ℚ × ℚ))
    (h : alookup s.robots robot_id = none) :
    offload_item s robot_id cands =
      some ⟨false, "Unable to find robot_id '" ++ robot_id ++ "'", s, []⟩ := by
  simp [offload_item, h]

theorem offload_item_not_holding {s : State} {robot_id : String} (cands : List (ℚ × ℚ))
    {robot : Robot} (h : alookup s.robots robot_id = some robot)
    (hh : robot.item_held = none) :
    offload_item s robot_id cands =
      some ⟨false,
        "Robot '" ++ robot_id ++ "' does not hold any items, so unable to offload.", s, []⟩ := by
  simp [offload_item, h, hh]

theorem offload_item_arena {s : State} {robot_id : String} (cands : List (ℚ × ℚ))
    {robot : Robot} {item_id : String} (h : alookup s.robots robot_id = some robot)
    (hh : robot.item_held = some item_id)
    (hal : allowed_drop_in_zone s robot ((get_robot_zone robot s.zones).map (·.2)) = false) :
    offload_item s robot_id cands =
      some ⟨true,
        "Item '" ++ item_id ++ "' held by robot '" ++ robot_id ++
          "' has been offloaded in the arena.",
        { s with robots := aupdate s.robots robot_id fun r => { r with item_held := none } },
        [.setEntityState item_id robot_id 0 0 0]⟩ := by
  simp [offload_item, h, hh, hal]

theorem offload_item_zone_deposit {s : State} {robot_id : String} {cands : List (ℚ × ℚ)}
    {robot : Robot} {item_id : String} {loc : ZoneLocation} {z : Zone} {item : Item}
    {x y : ℚ} {rest : List (ℚ × ℚ)}
    (h : alookup s.robots robot_id = some robot) (hh : robot.item_held = some item_id)
    (hz : get_robot_zone robot s.zones = some (loc, z))
    (hal : allowed_drop_in_zone s robot (some z) = true)
    (hitem : alookup s.items item_id = some item)
    (hgen : generate_item_position s.clusters s.items item.cluster_id cands =
      some ((x, y), rest)) :
    offload_item s robot_id cands =
      some ⟨true,
        "Item '" ++ pyStr none ++ "' held by robot '" ++ robot_id ++
          "' has been offloaded at zone '" ++ z.location.pyStr ++ "'.",
        { s with
          zones := aupdate s.zones loc fun zz =>
            { zz with items_returned := zz.items_returned.inc item.colour },
          items := aupdate s.items item_id fun it => { it with x := x, y := y },
          robots := aupdate s.robots robot_id fun _ =>
            { robot with item_held := none, previous_item_held := none } },
        [.setEntityState item_id "world" x y 0]⟩ := by
  simp [offload_item, h, hh, hz, hal, hitem, hgen]

/-- Every returned offload either leaves the zone registry untouched, or
performs one allowed single-colour increment at the zone the robot is in. -/
theorem offload_item_zones_cases {s : State} {robot_id : String} {cands : List (ℚ × ℚ)}
    {res : OffloadResult} (h : offload_item s robot_id cands = some res) :
    res.state.zones = s.zones ∨
    ∃ robot item_id item loc z,
      alookup s.robots robot_id = some robot ∧ robot.item_held = some item_id ∧
      get_robot_zone robot s.zones = some (loc, z) ∧
      allowed_drop_in_zone s robot (some z) = true ∧
      alookup s.items item_id = some item ∧
      res.state.zones = aupdate s.zones loc fun zz =>
        { zz with items_returned := zz.items_returned.inc item.colour } := by
  simp only [offload_item] at h
  split at h
  · cases h
    left
    rfl
  next robot hr =>
    split at h
    · cases h
      left
      rfl
    next item_id hh =>
      split at h
      · cases h
        left
        rfl
      next hif =>
        split at h
        · cases h
        next loc z hz =>
          split at h
          · cases h
          next item hitem =>
            split at h
            · cases h
            next x y rest hgen =>
              cases h
              right
              have hal : allowed_drop_in_zone s robot (some z) = true := by
                have h2 := hif
                rw [hz] at h2
                simpa using h2
              exact ⟨robot, item_id, item, loc, z, hr, hh, hz, hal, hitem, rfl⟩

/-! ### The zone-lock invariant -/

theorem heldItemColour_eq {s : State} {robot : Robot} {item_id : String} {item : Item}
    (hh : robot.item_held = some item_id) (hitem : alookup s.items item_id = some item) :
    heldItemColour s robot = some item.colour := by
  simp [heldItemColour, hh, hitem]

theorem allowed_drop_true_cases {s : State} {robot : Robot} {z : Zone}
    (hal : allowed_drop_in_zone s robot (some z) = true) :
    z.items_returned.firstNonzero = none ∨
    ∃ c, z.items_returned.firstNonzero = some c ∧ heldItemColour s robot = some c := by
  simp only [allowed_drop_in_zone] at hal
  split at hal
  next hfn => exact Or.inl hfn
  next m hfn =>
    split at hal
    next c hcol =>
      right
      refine ⟨m, hfn, ?_⟩
      rw [hcol]
      simp only [decide_eq_true_eq] at hal
      rw [hal]
    next => cases hal

theorem allowed_drop_false_of_other {s : State} {z : Zone} {c c' : Colour} {R : Robot}
    (hone : atMostOneColour z.items_returned) (hpos : 1 ≤ z.items_returned.get c)
    (hne : c' ≠ c) (hcol : heldItemColour s R = some c') :
    allowed_drop_in_zone s R (some z) = false := by
  obtain ⟨m, hfn, hmpos⟩ := ZoneCounts.firstNonzero_of_pos hpos
  have hmc : m = c := hone m c hmpos hpos
  subst hmc
  simp only [allowed_drop_in_zone, hfn, hcol]
  exact decide_eq_false fun hcc => hne hcc.symm

theorem atMostOneColour_zero : atMostOneColour ⟨0, 0, 0⟩ := by
  intro c c' hc _
  exfalso
  cases c <;> simp [ZoneCounts.get] at hc

theorem initZones_counts {tl tr br bl : Bool} {p : ZoneLocation × Zone}
    (hp : p ∈ initZones tl tr br bl) : p.2.items_returned = ⟨0, 0, 0⟩ := by
  rw [initZones] at hp
  rcases List.mem_append.mp hp with h | h
  · rcases List.mem_append.mp h with h | h
    · rcases List.mem_append.mp h with h | h
      · split at h
        · rcases List.mem_singleton.mp h with rfl
          rfl
        · cases h
      · split at h
        · rcases List.mem_singleton.mp h with rfl
          rfl
        · cases h
    · split at h
      · rcases List.mem_singleton.mp h with rfl
        rfl
      · cases h
  · split at h
    · rcases List.mem_singleton.mp h with rfl
      rfl
    · cases h

theorem zoneInv_init (tl tr br bl : Bool) : ZoneInv (initState tl tr br bl) := by
  constructor
  · cases tl <;> cases tr <;> cases br <;> cases bl <;> decide
  · intro p hp
    rw [initZones_counts hp]
    exact atMostOneColour_zero

theorem step_zoneInv {s s' : State} (hinv : ZoneInv s) (hstep : Step s s') : ZoneInv s' := by
  rcases hstep with hp | ho | ht
  · obtain ⟨robot_id, heq⟩ := hp
    rw [← heq]
    exact ⟨by rw [pick_up_item_zones]; exact hinv.1,
           fun p hp' => hinv.2 p (by rw [pick_up_item_zones] at hp'; exact hp')⟩
  · obtain ⟨robot_id, cands, res, hoff, hst⟩ := ho
    subst hst
    rcases offload_item_zones_cases hoff with hsame |
      ⟨robot, item_id, item, loc, z, hr, hh, hz, hal, hitem, hupd⟩
    · exact ⟨by rw [hsame]; exact hinv.1,
             fun p hp' => hinv.2 p (by rw [hsame] at hp'; exact hp')⟩
    · constructor
      · rw [hupd, aupdate_keys]
        exact hinv.1
      · intro p hp'
        rw [hupd] at hp'
        obtain ⟨q, hq, hpq⟩ := mem_aupdate hp'
        obtain ⟨qk, qv⟩ := q
        by_cases hqk : qk = loc
        · subst hqk
          rw [if_pos rfl] at hpq
          subst hpq
          have hmemz : (qk, z) ∈ s.zones := get_robot_zone_mem hz
          have hqz : qv = z := nodup_key_eq hinv.1 hq hmemz
          subst hqz
          apply atMostOneColour_inc (hinv.2 (qk, qv) hq)
          have hcol : heldItemColour s robot = some item.colour := heldItemColour_eq hh hitem
          rcases allowed_drop_true_cases hal with hn | ⟨c, hfn, hc⟩
          · exact Or.inl hn
          · right
            rw [hfn]
            rw [hcol] at hc
            rcases Option.some.inj hc with rfl
            rfl
        · rw [if_neg hqk] at hpq
          subst hpq
          exact hinv.2 _ hq
  · obtain ⟨inp, out, hcl, hst⟩ := ht
    subst hst
    have hzeq := control_loop_zones hcl
    exact ⟨by rw [hzeq]; exact hinv.1,
           fun p hp' => hinv.2 p (by rw [hzeq] at hp'; exact hp')⟩

theorem steps_zoneInv {s s' : State} (hinv : ZoneInv s) (h : Steps s s') : ZoneInv s' := by
  induction h with
  | refl => exact hinv
  | tail _ hstep ih => exact step_zoneInv ih hstep

theorem steps_trans {a b c : State} (h₁ : Steps a b) (h₂ : Steps b c) : Steps a c := by
  induction h₂ with
  | refl => exact h₁
  | tail _ hstep ih => exact Steps.tail ih hstep

theorem reachable_zoneInv {s : State} (h : Reachable s) : ZoneInv s := by
  obtain ⟨tl, tr, br, bl, hsteps⟩ := h
  exact steps_zoneInv (zoneInv_init tl tr br bl) hsteps

theorem reachable_steps {s s' : State} (h : Reachable s) (hs : Steps s s') : Reachable s' := by
  obtain ⟨tl, tr, br, bl, hsteps⟩ := h
  exact ⟨tl, tr, br, bl, steps_trans hsteps hs⟩

/-! ### Monotonicity of the zone tallies -/

theorem zoneCount_congr {s s' : State} (h : s'.zones = s.zones) (loc : ZoneLocation)
    (c : Colour) : zoneCount s' loc c = zoneCount s loc c := by
  rw [zoneCount, zoneCount, h]

theorem step_zoneCount_mono {s s' : State} (hstep : Step s s') (loc : ZoneLocation)
    (c : Colour) : zoneCount s loc c ≤ zoneCount s' loc c := by
  rcases hstep with hp | ho | ht
  · obtain ⟨robot_id, heq⟩ := hp
    rw [← heq, zoneCount_congr (pick_up_item_zones s robot_id)]
  · obtain ⟨robot_id, cands, res, hoff, hst⟩ := ho
    subst hst
    rcases offload_item_zones_cases hoff with hsame |
      ⟨robot, item_id, item, loc₀, z, _, _, _, _, _, hupd⟩
    · rw [zoneCount_congr hsame]
    · rw [zoneCount, zoneCount, hupd, alookup_aupdate]
      by_cases hl : loc = loc₀
      · rw [if_pos hl]
        rcases halz : alookup s.zones loc with _ | zz
        · simp
        · simp [ZoneCounts.get_inc]
          split <;> omega
      · rw [if_neg hl]
  · obtain ⟨inp, out, hcl, hst⟩ := ht
    subst hst
    rw [zoneCount_congr (control_loop_zones hcl)]

theorem steps_zoneCount_mono {s s' : State} (h : Steps s s') (loc : ZoneLocation)
    (c : Colour) : zoneCount s loc c ≤ zoneCount s' loc c := by
  induction h with
  | refl => exact le_refl _
  | tail _ hstep ih => exact le_trans ih (step_zoneCount_mono hstep loc c)

/-! ### Reachability of the concrete traces -/

theorem step_S0_S1 : Step S0 S1 :=
  Step.tick ⟨inp1, (control_loop S0 inp1).getD dfltOut, by with_unfolding_all decide, rfl⟩

theorem reachable_S4 : Reachable S4 := by
  refine ⟨true, true, true, true, ?_⟩
  have h12 : Step S1 S2 :=
    Step.tick ⟨inp2, (control_loop S1 inp2).getD dfltOut, by with_unfolding_all decide, rfl⟩
  have h23 : Step S2 S3 := Step.pick ⟨"robot1", rfl⟩
  have h34 : Step S3 S4 := Step.pick ⟨"robot2", rfl⟩
  exact Steps.tail (Steps.tail (Steps.tail (Steps.tail Steps.refl step_S0_S1) h12) h23) h34

theorem reachable_S5b : Reachable S5b := by
  refine ⟨true, true, true, true, ?_⟩
  have h12 : Step S1 S2b :=
    Step.tick ⟨inp2b, (control_loop S1 inp2b).getD dfltOut, by with_unfolding_all decide, rfl⟩
  have h23 : Step S2b S3b := Step.pick ⟨"robot1", rfl⟩
  have h34 : Step S3b S4b :=
    Step.tick ⟨inp3b, (control_loop S3b inp3b).getD dfltOut, by with_unfolding_all decide, rfl⟩
  have h45 : Step S4b S5b :=
    Step.off ⟨"robot1", [(0, 0)], offResB, by with_unfolding_all decide, rfl⟩
  exact Steps.tail (Steps.tail (Steps.tail (Steps.tail (Steps.tail Steps.refl step_S0_S1)
    h12) h23) h34) h45

/-- Claim C1: the single-holder invariant is violated by the code.  From the
initial state, one seeding tick, one discovery tick that reports two robots at
the position of `item0`, and two pick-up requests reach a state in which the
two distinct robots `robot1` and `robot2` both hold `item0`: the scan of
`pick_up_item` never excludes items already held by another robot. -/
theorem claim_C1_single_holder_violated :
    Reachable S4 ∧
    (alookup S4.robots "robot1").map Robot.item_held = some (some "item0") ∧
    (alookup S4.robots "robot2").map Robot.item_held = some (some "item0") ∧
    "robot1" ≠ "robot2" := by
  refine ⟨reachable_S4, ?_, ?_, ?_⟩ <;> with_unfolding_all decide

/-- Claim C2: zone lock monotonicity.  In any reachable state whose zone at
`loc` has a positive tally for colour `c`, the tally never decreases along any
further steps, and in every later state an `allowed_drop_in_zone` query on
that zone for a robot holding an item of any colour `c' ≠ c` returns false. -/
theorem claim_C2_zone_lock_monotonic (s s' : State) (hreach : Reachable s)
    (hsteps : Steps s s') (loc : ZoneLocation) (c : Colour)
    (hpos : 1 ≤ zoneCount s loc c) :
    zoneCount s loc c ≤ zoneCount s' loc c ∧
    ∀ (c' : Colour) (R : Robot) (z' : Zone), c' ≠ c →
      heldItemColour s' R = some c' →
      alookup s'.zones loc = some z' →
      allowed_drop_in_zone s' R (some z') = false := by
  constructor
  · exact steps_zoneCount_mono hsteps loc c
  · intro c' R z' hne hcol hz'
    have hinv' : ZoneInv s' := reachable_zoneInv (reachable_steps hreach hsteps)
    have hpos' : 1 ≤ zoneCount s' loc c := le_trans hpos (steps_zoneCount_mono hsteps loc c)
    have hposz : 1 ≤ z'.items_returned.get c := by
      rw [zoneCount, hz'] at hpos'
      exact hpos'
    exact allowed_drop_false_of_other (hinv'.2 (loc, z') (alookup_mem hz')) hposz hne hcol

/-- Witness for C2: in the reachable state `S5b` the top-left zone holds one
RED deposit, and a robot holding the GREEN `item6` is refused. -/
theorem claim_C2_zone_lock_monotonic_witness :
    Reachable S5b ∧ 1 ≤ zoneCount S5b .TOP_LEFT .RED ∧
    heldItemColour S5b ⟨0, 0, some "item6", none⟩ = some .GREEN ∧
    alookup S5b.zones .TOP_LEFT = some zTLb ∧
    allowed_drop_in_zone S5b ⟨0, 0, some "item6", none⟩ (some zTLb) = false := by
  have h1 : Reachable S5b := reachable_S5b
  have h2 : 1 ≤ zoneCount S5b .TOP_LEFT .RED := by with_unfolding_all decide
  have h3 : heldItemColour S5b ⟨0, 0, some "item6", none⟩ = some .GREEN := by
    with_unfolding_all decide
  have h4 : alookup S5b.zones .TOP_LEFT = some zTLb := by with_unfolding_all decide
  have h5 := (claim_C2_zone_lock_monotonic S5b S5b h1 Steps.refl .TOP_LEFT .RED h2).2
    .GREEN ⟨0, 0, some "item6", none⟩ zTLb (by decide) h3 h4
  exact ⟨h1, h2, h3, h4, h5⟩

/-- Claim C3: the zone acceptance rule.  For a robot holding an item of
colour `c'`: a zone whose tallies are all zero accepts any colour, and a zone
committed to exactly one non-zero colour `c` accepts precisely the held
colour `c' = c`. -/
theorem claim_C3_zone_acceptance (s : State) (R : Robot) (z : Zone) (c' : Colour)
    (hcol : heldItemColour s R = some c') :
    ((∀ c, z.items_returned.get c = 0) → allowed_drop_in_zone s R (some z) = true) ∧
    (∀ c, 1 ≤ z.items_returned.get c → (∀ c₂, c₂ ≠ c → z.items_returned.get c₂ = 0) →
      (allowed_drop_in_zone s R (some z) = true ↔ c' = c)) := by
  constructor
  · intro hzero
    have hr := hzero .RED
    have hg := hzero .GREEN
    have hb := hzero .BLUE
    simp only [ZoneCounts.get] at hr hg hb
    have hfn : z.items_returned.firstNonzero = none := by
      simp [ZoneCounts.firstNonzero, hr, hg, hb]
    simp [allowed_drop_in_zone, hfn]
  · intro c hc hother
    have hfn : z.items_returned.firstNonzero = some c := by
      obtain ⟨m, hm, hmpos⟩ := ZoneCounts.firstNonzero_of_pos hc
      have hmc : m = c := by
        by_contra hne
        rw [hother m hne] at hmpos
        omega
      rw [← hmc]
      exact hm
    simp [allowed_drop_in_zone, hfn, hcol, eq_comm]

/-- Witness for C3: with a robot holding the red `item0`, a fresh zone and a
red-committed zone accept, a green-committed zone refuses. -/
theorem claim_C3_zone_acceptance_witness :
    heldItemColour sC3 ⟨0, 0, some "item0", none⟩ = some .RED ∧
    allowed_drop_in_zone sC3 ⟨0, 0, some "item0", none⟩
      (some ⟨.TOP_LEFT, 2.57, 2.5, ⟨0, 0, 0⟩⟩) = true ∧
    allowed_drop_in_zone sC3 ⟨0, 0, some "item0", none⟩
      (some ⟨.TOP_LEFT, 2.57, 2.5, ⟨1, 0, 0⟩⟩) = true ∧
    allowed_drop_in_zone sC3 ⟨0, 0, some "item0", none⟩
      (some ⟨.TOP_LEFT, 2.57, 2.5, ⟨0, 1, 0⟩⟩) = false := by
  have hcol : heldItemColour sC3 ⟨0, 0, some "item0", none⟩ = some .RED := by decide
  refine ⟨hcol, ?_, ?_, ?_⟩
  · exact (claim_C3_zone_acceptance sC3 ⟨0, 0, some "item0", none⟩
      ⟨.TOP_LEFT, 2.57, 2.5, ⟨0, 0, 0⟩⟩ .RED hcol).1 fun c => by cases c <;> rfl
  · exact ((claim_C3_zone_acceptance sC3 ⟨0, 0, some "item0", none⟩
      ⟨.TOP_LEFT, 2.57, 2.5, ⟨1, 0, 0⟩⟩ .RED hcol).2 .RED (by decide)
      (fun c₂ h => by cases c₂ <;> first | rfl | exact absurd rfl h)).mpr rfl
  · have hiff := (claim_C3_zone_acceptance sC3 ⟨0, 0, some "item0", none⟩
      ⟨.TOP_LEFT, 2.57, 2.5, ⟨0, 1, 0⟩⟩ .RED hcol).2 .GREEN (by decide)
      (fun c₂ h => by cases c₂ <;> first | rfl | exact absurd rfl h)
    cases hb : allowed_drop_in_zone sC3 ⟨0, 0, some "item0", none⟩
      (some ⟨.TOP_LEFT, 2.57, 2.5, ⟨0, 1, 0⟩⟩)
    · rfl
    · exact absurd (hiff.mp hb) (by decide)

/-- Claim C7: `pick_up_item` semantics.  Unknown robot and already-holding
robot fail with the respective messages and an unchanged state; otherwise the
first item of the scan strictly within 0.35 units is assigned (only that
robot's held-item field changes), and if no item is in range the call fails
with the "unable to pick any item" message and an unchanged state. -/
theorem claim_C7_pick_up_semantics (s : State) (robot_id : String) :
    (alookup s.robots robot_id = none →
      pick_up_item s robot_id = (false, "Unable to find robot_id '" ++ robot_id ++ "'", s)) ∧
    (∀ R, alookup s.robots robot_id = some R →
      ((∃ j, R.item_held = some j) →
        pick_up_item s robot_id =
          (false, "Robot '" ++ robot_id ++ "' is already holding an item", s)) ∧
      (R.item_held = none →
        (∀ item_id it pre post, s.items = pre ++ (item_id, it) :: post →
          (∀ q ∈ pre, withinPickup R q.2 = false) → withinPickup R it = true →
          pick_up_item s robot_id =
            (true, "Robot '" ++ robot_id ++ "' collected item successfully",
             { s with robots :=
                 aupdate s.robots robot_id fun r => { r with item_held := some item_id } })) ∧
        ((∀ q ∈ s.items, withinPickup R q.2 = false) →
          pick_up_item s robot_id =
            (false, "Robot '" ++ robot_id ++ "' unable to pick any item.", s)))) := by
  refine ⟨fun hn => ?_, fun R hR => ⟨fun hj => ?_, fun hnone => ⟨?_, ?_⟩⟩⟩
  · simp [pick_up_item, hn]
  · obtain ⟨j, hj⟩ := hj
    simp [pick_up_item, hR, hj]
  · intro item_id it pre post hsplit hpre hit
    have hscan : scanItems R s.items = some (item_id, it) := by
      rw [hsplit]
      exact scanItems_first pre post hpre hit
    simp [pick_up_item, hR, hnone, hscan]
  · intro hall
    simp [pick_up_item, hR, hnone, scanItems_eq_none hall]

/-- Witness for C7 (scenario A): `r1` at distance 0.2 from `item0` picks it
up; only the held-item field changes. -/
theorem claim_C7_pick_up_semantics_witness :
    pick_up_item sC7 "r1" =
      (true, "Robot 'r1' collected item successfully",
       { sC7 with robots :=
           aupdate sC7.robots "r1" fun r => { r with item_held := some "item0" } }) := by
  have h := ((claim_C7_pick_up_semantics sC7 "r1").2 ⟨0, 0, none, none⟩
    (by with_unfolding_all decide)).2 rfl
  exact h.1 "item0" ⟨1 / 5, 0, .RED, "cluster0"⟩ [] [] rfl
    (fun q hq => absurd hq (List.not_mem_nil q)) (by with_unfolding_all decide)

/-- A returned offload from a known, holding robot always succeeds. -/
theorem offload_item_success_of_holding (s : State) (robot_id : String)
    (cands : List (ℚ × ℚ)) {res : OffloadResult} {R : Robot} {item_id : String}
    (hR : alookup s.robots robot_id = some R) (hh : R.item_held = some item_id)
    (h : offload_item s robot_id cands = some res) : res.success = true := by
  simp only [offload_item, hR, hh] at h
  split at h
  · cases h
    rfl
  · split at h
    · cases h
    next loc z hz =>
      split at h
      · cases h
      next item hitem =>
        split at h
        · cases h
        next x y rest hgen =>
          cases h
          rfl

/-- Claim C5: offload result rule.  A returned offload fails exactly when the
robot id is unknown or the robot holds nothing; when the robot is known and
holding but no zone accepts (outside every zone, or colour refused), the call
still succeeds, the message notes the item was offloaded in the arena, the
held-item field is cleared, and no zone tally changes. -/
theorem claim_C5_offload_result (s : State) (robot_id : String) (cands : List (ℚ × ℚ))
    (res : OffloadResult) (h : offload_item s robot_id cands = some res) :
    (res.success = false ↔
      alookup s.robots robot_id = none ∨
      ∃ R, alookup s.robots robot_id = some R ∧ R.item_held = none) ∧
    (∀ R item_id, alookup s.robots robot_id = some R → R.item_held = some item_id →
      allowed_drop_in_zone s R ((get_robot_zone R s.zones).map (·.2)) = false →
      res.success = true ∧
      res.message = "Item '" ++ item_id ++ "' held by robot '" ++ robot_id ++
        "' has been offloaded in the arena." ∧
      res.state.zones = s.zones ∧
      alookup res.state.robots robot_id = some { R with item_held := none }) := by
  rcases hr : alookup s.robots robot_id with _ | R
  · rw [offload_item_unknown cands hr] at h
    cases h
    refine ⟨⟨fun _ => Or.inl rfl, fun _ => rfl⟩, ?_⟩
    intro R item_id hR
    cases hR
  · rcases hh : R.item_held with _ | item_id
    · rw [offload_item_not_holding cands hr hh] at h
      cases h
      refine ⟨⟨fun _ => Or.inr ⟨R, rfl, hh⟩, fun _ => rfl⟩, ?_⟩
      intro R' item_id' hR' hh'
      obtain rfl := Option.some.inj hR'
      rw [hh] at hh'
      cases hh'
    · by_cases hal : allowed_drop_in_zone s R ((get_robot_zone R s.zones).map (·.2)) = false
      · rw [offload_item_arena cands hr hh hal] at h
        cases h
        constructor
        · constructor
          · intro hfalse
            cases hfalse
          · rintro (hcontra | ⟨R', hR', hh'⟩)
            · cases hcontra
            · obtain rfl := Option.some.inj hR'
              rw [hh] at hh'
              cases hh'
        · intro R' item_id' hR' hh' _
          obtain rfl := Option.some.inj hR'
          rw [hh] at hh'
          obtain rfl := Option.some.inj hh'
          refine ⟨rfl, rfl, rfl, ?_⟩
          rw [alookup_aupdate_self, hr]
          rfl
      · have hsucc : res.success = true :=
          offload_item_success_of_holding s robot_id cands hr hh h
        constructor
        · constructor
          · intro hfalse
            rw [hsucc] at hfalse
            cases hfalse
          · rintro (hcontra | ⟨R', hR', hh'⟩)
            · cases hcontra
            · obtain rfl := Option.some.inj hR'
              rw [hh] at hh'
              cases hh'
        · intro R' item_id' hR' hh' hal''
          obtain rfl := Option.some.inj hR'
          exact absurd hal'' hal

/-- Witness for C5 (no-zone case): `r9` holds `item7` with no zone enabled;
the offload succeeds, notes the arena drop, clears the hand, and leaves the
(empty) zone registry unchanged. -/
theorem claim_C5_offload_result_witness :
    offload_item sC5 "r9" [] = some resC5 ∧
    (resC5.success = false ↔
      alookup sC5.robots "r9" = none ∨
      ∃ R, alookup sC5.robots "r9" = some R ∧ R.item_held = none) ∧
    resC5.success = true ∧
    resC5.message = "Item 'item7' held by robot 'r9' has been offloaded in the arena." ∧
    resC5.state.zones = sC5.zones ∧
    alookup resC5.state.robots "r9" = some ⟨0, 0, none, none⟩ := by
  have hoff : offload_item sC5 "r9" [] = some resC5 := by with_unfolding_all decide
  have h := claim_C5_offload_result sC5 "r9" [] resC5 hoff
  have h2 := h.2 ⟨0, 0, some "item7", none⟩ "item7" (by with_unfolding_all decide) rfl
    (by with_unfolding_all decide)
  exact ⟨hoff, h.1, h2.1, h2.2.1, h2.2.2.1, h2.2.2.2⟩

/-- Claim C6: zone-deposit postcondition.  When the robot is known, holds an
item, stands in a zone, the zone accepts the item's colour, and the placement
generator returns a position in the item's origin cluster, the offload
succeeds, bumps exactly that zone tally for that colour by one, stores the
generated coordinates in the item, issues one world-frame pose-set, and
clears the robot's hand. -/
theorem claim_C6_zone_deposit (s : State) (robot_id : String) (cands : List (ℚ × ℚ))
    (R : Robot) (item_id : String) (item : Item) (loc : ZoneLocation) (z : Zone)
    (x y : ℚ) (rest : List (ℚ × ℚ))
    (hR : alookup s.robots robot_id = some R) (hh : R.item_held = some item_id)
    (hz : get_robot_zone R s.zones = some (loc, z))
    (hal : allowed_drop_in_zone s R (some z) = true)
    (hitem : alookup s.items item_id = some item)
    (hgen : generate_item_position s.clusters s.items item.cluster_id cands =
      some ((x, y), rest)) :
    ∃ res, offload_item s robot_id cands = some res ∧
      res.success = true ∧
      zoneCount res.state loc item.colour = zoneCount s loc item.colour + 1 ∧
      (∀ loc' c', loc' ≠ loc ∨ c' ≠ item.colour →
        zoneCount res.state loc' c' = zoneCount s loc' c') ∧
      alookup res.state.items item_id = some { item with x := x, y := y } ∧
      res.calls = [.setEntityState item_id "world" x y 0] ∧
      alookup res.state.robots robot_id =
        some { R with item_held := none, previous_item_held := none } := by
  refine ⟨_, offload_item_zone_deposit hR hh hz hal hitem hgen, rfl, ?_, ?_, ?_, rfl, ?_⟩
  · obtain ⟨z₀, hz₀⟩ := alookup_isSome_of_mem (get_robot_zone_mem hz)
    rw [zoneCount, zoneCount]
    show (match alookup (aupdate s.zones loc _) loc with
          | none => 0 | some zz => zz.items_returned.get item.colour) = _
    rw [alookup_aupdate_self, hz₀]
    simp [ZoneCounts.get_inc]
  · intro loc' c' hor
    rw [zoneCount, zoneCount]
    show (match alookup (aupdate s.zones loc _) loc' with
          | none => 0 | some zz => zz.items_returned.get c') = _
    by_cases hl : loc' = loc
    · subst hl
      rcases hor with hcontra | hc
      · exact absurd rfl hcontra
      · rw [alookup_aupdate_self]
        rcases halz : alookup s.zones loc' with _ | zz
        · rfl
        · simp [ZoneCounts.get_inc, hc]
    · rw [alookup_aupdate_ne _ _ hl]
  · show alookup (aupdate s.items item_id _) item_id = _
    rw [alookup_aupdate_self, hitem]
    rfl
  · show alookup (aupdate s.robots robot_id _) robot_id = _
    rw [alookup_aupdate_self, hR]
    rfl

/-- Witness for C6 (scenario B essence): from `sC6`, the deposit into the
fresh top-left zone succeeds, the RED tally becomes 1, `item0` is relocated
to the generated cluster position `(-2, 0)`, one world-frame pose-set is
issued, and `r1` holds nothing. -/
theorem claim_C6_zone_deposit_witness :
    offload_item sC6 "r1" [(0, 0)] = some resC6 ∧
    resC6.success = true ∧
    zoneCount resC6.state .TOP_LEFT .RED = 1 ∧
    alookup resC6.state.items "item0" = some ⟨-2, 0, .RED, "cluster0"⟩ ∧
    resC6.calls = [.setEntityState "item0" "world" (-2) 0 0] ∧
    alookup resC6.state.robots "r1" = some ⟨2.57, 2.5, none, none⟩ := by
  obtain ⟨res, hoff, h1, h2, _, h4, h5, h6⟩ :=
    claim_C6_zone_deposit sC6 "r1" [(0, 0)] ⟨2.57, 2.5, some "item0", none⟩ "item0"
      ⟨2.57, 2.5, .RED, "cluster0"⟩ .TOP_LEFT ⟨.TOP_LEFT, 2.57, 2.5, ⟨0, 0, 0⟩⟩ (-2) 0 []
      (by with_unfolding_all decide) rfl (by with_unfolding_all decide)
      (by with_unfolding_all decide) (by with_unfolding_all decide)
      (by with_unfolding_all decide)
  have hres : resC6 = res := by
    rw [resC6, hoff]
    rfl
  rw [hres]
  refine ⟨hoff, h1, ?_, h4, h5, h6⟩
  rw [h2]
  with_unfolding_all decide

/-- Claim C10: frame of the in-arena offload.  When the robot is known and
holding but the drop is not allowed (no zone or colour refused), the item
registry (positions, colours, clusters), the zone registry, the cluster
registry and the counters are untouched; exactly one robot-frame pose-set is
issued; and the only world-state mutation is clearing that robot's held-item
field. -/
theorem claim_C10_arena_frame (s : State) (robot_id : String) (cands : List (ℚ × ℚ))
    (R : Robot) (item_id : String)
    (hR : alookup s.robots robot_id = some R) (hh : R.item_held = some item_id)
    (hal : allowed_drop_in_zone s R ((get_robot_zone R s.zones).map (·.2)) = false) :
    ∃ res, offload_item s robot_id cands = some res ∧
      res.success = true ∧
      res.state.items = s.items ∧
      res.state.zones = s.zones ∧
      res.state.clusters = s.clusters ∧
      res.state.item_counter = s.item_counter ∧
      res.state.cluster_counter = s.cluster_counter ∧
      res.state.first_run = s.first_run ∧
      res.calls = [.setEntityState item_id robot_id 0 0 0] ∧
      alookup res.state.robots robot_id = some { R with item_held := none } ∧
      (∀ rid', rid' ≠ robot_id → alookup res.state.robots rid' = alookup s.robots rid') := by
  refine ⟨_, offload_item_arena cands hR hh hal, rfl, rfl, rfl, rfl, rfl, rfl, rfl, rfl,
    ?_, ?_⟩
  · show alookup (aupdate s.robots robot_id _) robot_id = _
    rw [alookup_aupdate_self, hR]
    rfl
  · intro rid' hne
    exact alookup_aupdate_ne _ _ hne

/-- Witness for C10: `r2` (holding `item3`, outside every zone) offloads;
the whole state except `r2`'s held-item field is untouched, `r3` included,
and the single backend call is a pose-set in `r2`'s frame. -/
theorem claim_C10_arena_frame_witness :
    offload_item sC10 "r2" [] = some resC10 ∧
    resC10.success = true ∧
    resC10.state.items = sC10.items ∧
    resC10.state.zones = sC10.zones ∧
    resC10.state.clusters = sC10.clusters ∧
    resC10.calls = [.setEntityState "item3" "r2" 0 0 0] ∧
    alookup resC10.state.robots "r2" = some ⟨1, 1, none, none⟩ ∧
    alookup resC10.state.robots "r3" = alookup sC10.robots "r3" := by
  obtain ⟨res, hoff, h1, h2, h3, h4, _, _, _, h8, h9, h10⟩ :=
    claim_C10_arena_frame sC10 "r2" [] ⟨1, 1, some "item3", none⟩ "item3"
      (by with_unfolding_all decide) rfl (by with_unfolding_all decide)
  have hres : resC10 = res := by
    rw [resC10, hoff]
    rfl
  rw [hres]
  exact ⟨hoff, h1, h2, h3, h4, h8, h9, h10 "r3" (by decide)⟩

/-- Counterexample for C4: a concrete successful zone deposit whose response
message interpolates the cleared field as the string `None`, not as the empty
string the claim states. -/
theorem claim_C4_counterexample :
    (offload_item sC6 "r1" [(0, 0)]).map OffloadResult.message =
      some "Item 'None' held by robot 'r1' has been offloaded at zone 'ZoneLocation.TOP_LEFT'." ∧
    (offload_item sC6 "r1" [(0, 0)]).map OffloadResult.message ≠
      some "Item '' held by robot 'r1' has been offloaded at zone 'ZoneLocation.TOP_LEFT'." ∧
    (offload_item sC6 "r1" [(0, 0)]).map OffloadResult.success = some true := by
  refine ⟨?_, ?_, ?_⟩ <;> with_unfolding_all decide

/-- Claim C4 (amended): for every successful zone-deposit offload the
response message reports the offloaded item as the string `None` — Python's
rendering of the already-cleared held-item field — independently of which
item was actually deposited. -/
theorem claim_C4_none_message (s : State) (robot_id : String) (cands : List (ℚ × ℚ))
    (R : Robot) (item_id : String) (item : Item) (loc : ZoneLocation) (z : Zone)
    (x y : ℚ) (rest : List (ℚ × ℚ))
    (hR : alookup s.robots robot_id = some R) (hh : R.item_held = some item_id)
    (hz : get_robot_zone R s.zones = some (loc, z))
    (hal : allowed_drop_in_zone s R (some z) = true)
    (hitem : alookup s.items item_id = some item)
    (hgen : generate_item_position s.clusters s.items item.cluster_id cands =
      some ((x, y), rest)) :
    (offload_item s robot_id cands).map OffloadResult.message =
      some ("Item '" ++ "None" ++ "' held by robot '" ++ robot_id ++
        "' has been offloaded at zone '" ++ z.location.pyStr ++ "'.") := by
  rw [offload_item_zone_deposit hR hh hz hal hitem hgen]
  rfl

/-- Witness for C4 (amended): the concrete deposit from `sC6`. -/
theorem claim_C4_none_message_witness :
    (offload_item sC6 "r1" [(0, 0)]).map OffloadResult.message =
      some ("Item '" ++ "None" ++ "' held by robot '" ++ "r1" ++
        "' has been offloaded at zone '" ++ ZoneLocation.pyStr .TOP_LEFT ++ "'.") := by
  exact claim_C4_none_message sC6 "r1" [(0, 0)] ⟨2.57, 2.5, some "item0", none⟩ "item0"
    ⟨2.57, 2.5, .RED, "cluster0"⟩ .TOP_LEFT ⟨.TOP_LEFT, 2.57, 2.5, ⟨0, 0, 0⟩⟩ (-2) 0 []
    (by with_unfolding_all decide) rfl (by with_unfolding_all decide)
    (by with_unfolding_all decide) (by with_unfolding_all decide)
    (by with_unfolding_all decide)

/-- Claim C8: placement separation.  Every coordinate returned by
`generate_cluster_location` avoids the four obstacle cells, coincides with no
existing cluster centre, and is at squared distance strictly greater than 1
from every existing centre; every coordinate returned by
`generate_item_position` is at squared distance at least `0.3 ^ 2` from every
existing item of the same cluster. -/
theorem claim_C8_placement_separation :
    (∀ (clusters : List (String × Cluster)) (cands : List (ℤ × ℤ)) (x y : ℤ)
      (rest : List (ℤ × ℤ)),
      generate_cluster_location clusters cands = some ((x, y), rest) →
      obstacle x y = false ∧
      ∀ p ∈ clusters, ¬(p.2.x = (x : ℚ) ∧ p.2.y = (y : ℚ)) ∧
        1 < dist2 p.2.x p.2.y (x : ℚ) (y : ℚ)) ∧
    (∀ (clusters : List (String × Cluster)) (items : List (String × Item))
      (cluster_id : String) (cands : List (ℚ × ℚ)) (x y : ℚ) (rest : List (ℚ × ℚ)),
      generate_item_position clusters items cluster_id cands = some ((x, y), rest) →
      ∀ p ∈ items, p.2.cluster_id = cluster_id →
        (3 / 10 : ℚ) ^ 2 ≤ dist2 p.2.x p.2.y x y) := by
  constructor
  · intro clusters cands
    induction cands with
    | nil =>
      intro x y rest h
      cases h
    | cons cand rest' ih =>
      obtain ⟨cx, cy⟩ := cand
      intro x y rest h
      rw [generate_cluster_location] at h
      by_cases hobs : obstacle cx cy = true
      · rw [if_pos hobs] at h
        exact ih x y rest h
      · rw [if_neg hobs] at h
        by_cases hcl : clashes clusters cx cy = true
        · rw [if_pos hcl] at h
          exact ih x y rest h
        · rw [if_neg hcl] at h
          cases h
          constructor
          · exact Bool.not_eq_true _ |>.mp hobs
          · intro p hp
            rw [clashes, List.any_eq_true] at hcl
            push_neg at hcl
            have hpc := hcl p hp
            simp only [ne_eq, Bool.or_eq_true, Bool.and_eq_true, decide_eq_true_eq,
              not_or] at hpc
            exact ⟨hpc.1, lt_of_not_le hpc.2⟩
  · intro clusters items cluster_id cands
    induction cands with
    | nil =>
      intro x y rest h
      cases h
    | cons cand rest' ih =>
      obtain ⟨dx, dy⟩ := cand
      intro x y rest h
      rw [generate_item_position] at h
      rcases hcl : alookup clusters cluster_id with _ | cl
      · rw [hcl] at h
        cases h
      · rw [hcl] at h
        simp only at h
        by_cases hany : (items.any fun p =>
            decide (p.2.cluster_id = cluster_id) &&
            decide (dist2 p.2.x p.2.y (cl.x + dx) (cl.y + dy) < (3 / 10 : ℚ) ^ 2)) = true
        · rw [if_pos hany] at h
          exact ih x y rest h
        · rw [if_neg hany] at h
          cases h
          intro p hp hpid
          rw [List.any_eq_true] at hany
          push_neg at hany
          have hpc := hany p hp
          simp only [ne_eq, Bool.and_eq_true, decide_eq_true_eq, not_and] at hpc
          exact le_of_not_lt (hpc hpid)

/-- Witness for C8: a concrete run of each generator; the third cluster
candidate (after an obstacle hit and a coincidence) and the second item
candidate (after a too-close rejection) are returned and separated. -/
theorem claim_C8_placement_separation_witness :
    generate_cluster_location [("c0", ⟨0, 0, .RED⟩)] [(1, 1), (0, 0), (2, 2)] =
      some ((2, 2), []) ∧
    obstacle 2 2 = false ∧
    ¬((0 : ℚ) = ((2 : ℤ) : ℚ) ∧ (0 : ℚ) = ((2 : ℤ) : ℚ)) ∧
    1 < dist2 0 0 ((2 : ℤ) : ℚ) ((2 : ℤ) : ℚ) ∧
    generate_item_position [("c0", ⟨0, 0, .RED⟩)] [("i0", ⟨0, 0, .RED, "c0"⟩)] "c0"
      [(1 / 10, 0), (5 / 2, 0)] = some ((5 / 2, 0), []) ∧
    (3 / 10 : ℚ) ^ 2 ≤ dist2 0 0 (5 / 2) 0 := by
  have hgc : generate_cluster_location [("c0", ⟨0, 0, .RED⟩)] [(1, 1), (0, 0), (2, 2)] =
      some ((2, 2), []) := by with_unfolding_all decide
  have hgi : generate_item_position [("c0", ⟨0, 0, .RED⟩)] [("i0", ⟨0, 0, .RED, "c0"⟩)] "c0"
      [(1 / 10, 0), (5 / 2, 0)] = some ((5 / 2, 0), []) := by with_unfolding_all decide
  have h1 := (claim_C8_placement_separation.1 _ _ _ _ _ hgc).1
  have h2 := (claim_C8_placement_separation.1 _ _ _ _ _ hgc).2 ("c0", ⟨0, 0, .RED⟩)
    (List.mem_singleton.mpr rfl)
  have h3 := claim_C8_placement_separation.2 _ _ _ _ _ _ _ hgi ("i0", ⟨0, 0, .RED, "c0"⟩)
    (List.mem_singleton.mpr rfl) rfl
  exact ⟨hgc, h1, h2.1, h2.2, hgi, h3⟩

/-! ### Behaviour of one post-seeding tick -/

theorem seedPhase_not_first {s : State} (rs : RandStreams) (hfr : s.first_run = false) :
    seedPhase s rs = some (⟨s.clusters, s.items, s.cluster_counter, s.item_counter⟩, []) := by
  simp [seedPhase, hfr]

theorem control_loop_out_not_first {s : State} {inp : TickInput}
    {out : State × List BackendCall × List ItemHolderMsg × ItemLogMsg}
    (hfr : s.first_run = false) (h : control_loop s inp = some out) :
    out.1 = (afterSeed s inp ⟨s.clusters, s.items, s.cluster_counter, s.item_counter⟩).1 := by
  obtain ⟨st, calls, hseed, hout⟩ := control_loop_state h
  rw [seedPhase_not_first inp.streams hfr] at hseed
  cases hseed
  exact hout

theorem alookup_aupdate_map {κ α β : Type} [DecidableEq κ] (l : List (κ × α)) (k k' : κ)
    (f : α → α) (g : α → β) (hf : ∀ a, g (f a) = g a) :
    (alookup (aupdate l k f) k').map g = (alookup l k').map g := by
  rw [alookup_aupdate]
  by_cases h : k' = k
  · rw [if_pos h]
    rcases alookup l k' with _ | v
    · rfl
    · simp [hf]
  · rw [if_neg h]

theorem syncRobot_fst (poses : String → ℚ × ℚ × ℚ) (robot_id : String)
    (robots : List (String × Robot)) (items : List (String × Item)) :
    (syncRobot poses robot_id robots items).1 = robots ∨
    ∃ rx ry, (syncRobot poses robot_id robots items).1 =
      aupdate robots robot_id fun r => { r with x := rx, y := ry } := by
  rcases hr : alookup robots robot_id with _ | robot
  · left
    simp [syncRobot, hr]
  · rcases hh : robot.item_held with _ | item_id
    · right
      refine ⟨round2 (poses robot_id).1, round2 (poses robot_id).2.1, ?_⟩
      simp [syncRobot, hr, hh]
    · right
      refine ⟨round2 (poses robot_id).1, round2 (poses robot_id).2.1, ?_⟩
      simp [syncRobot, hr, hh]

theorem syncRobot_snd (poses : String → ℚ × ℚ × ℚ) (robot_id : String)
    (robots : List (String × Robot)) (items : List (String × Item)) :
    (syncRobot poses robot_id robots items).2.1 = items ∨
    ∃ item_id rx ry,
      (∃ robot, alookup robots robot_id = some robot ∧ robot.item_held = some item_id) ∧
      (syncRobot poses robot_id robots items).2.1 =
        aupdate items item_id fun it => { it with x := rx, y := ry } := by
  rcases hr : alookup robots robot_id with _ | robot
  · left
    simp [syncRobot, hr]
  · rcases hh : robot.item_held with _ | item_id
    · left
      simp [syncRobot, hr, hh]
    · right
      refine ⟨item_id, round2 (poses robot_id).1, round2 (poses robot_id).2.1,
        ⟨robot, rfl, hh⟩, ?_⟩
      simp [syncRobot, hr, hh]

theorem syncAll_robots_map {β : Type} (g : Robot → β)
    (hg : ∀ (r : Robot) (rx ry : ℚ), g { r with x := rx, y := ry } = g r)
    (poses : String → ℚ × ℚ × ℚ) (rids : List String) (robots : List (String × Robot))
    (items : List (String × Item)) (rid' : String) :
    (alookup (syncAll poses rids robots items).1 rid').map g = (alookup robots rid').map g := by
  induction rids generalizing robots items with
  | nil => rfl
  | cons rid rest ih =>
    rw [syncAll]
    show (alookup (syncAll poses rest (syncRobot poses rid robots items).1
      (syncRobot poses rid robots items).2.1).1 rid').map g = _
    rw [ih]
    rcases syncRobot_fst poses rid robots items with heq | ⟨rx, ry, heq⟩
    · rw [heq]
    · rw [heq, alookup_aupdate_map _ _ _ _ g fun a => hg a rx ry]

theorem syncAll_items_map {β : Type} (g : Item → β)
    (hg : ∀ (it : Item) (ix iy : ℚ), g { it with x := ix, y := iy } = g it)
    (poses : String → ℚ × ℚ × ℚ) (rids : List String) (robots : List (String × Robot))
    (items : List (String × Item)) (item_id : String) :
    (alookup (syncAll poses rids robots items).2.1 item_id).map g =
      (alookup items item_id).map g := by
  induction rids generalizing robots items with
  | nil => rfl
  | cons rid rest ih =>
    rw [syncAll]
    show (alookup (syncAll poses rest (syncRobot poses rid robots items).1
      (syncRobot poses rid robots items).2.1).2.1 item_id).map g = _
    rw [ih]
    rcases syncRobot_snd poses rid robots items with heq | ⟨iid₀, rx, ry, _, heq⟩
    · rw [heq]
    · rw [heq, alookup_aupdate_map _ _ _ _ g fun a => hg a rx ry]

theorem syncAll_items_keys (poses : String → ℚ × ℚ × ℚ) (rids : List String)
    (robots : List (String × Robot)) (items : List (String × Item)) :
    (syncAll poses rids robots items).2.1.map Prod.fst = items.map Prod.fst := by
  induction rids generalizing robots items with
  | nil => rfl
  | cons rid rest ih =>
    rw [syncAll]
    show (syncAll poses rest (syncRobot poses rid robots items).1
      (syncRobot poses rid robots items).2.1).2.1.map Prod.fst = _
    rw [ih]
    rcases syncRobot_snd poses rid robots items with heq | ⟨iid₀, rx, ry, _, heq⟩
    · rw [heq]
    · rw [heq, aupdate_keys]

theorem syncAll_items_unheld (poses : String → ℚ × ℚ × ℚ) (rids : List String)
    (robots : List (String × Robot)) (items : List (String × Item)) (item_id : String)
    (hno : ∀ rid ∈ rids, ∀ R, alookup robots rid = some R → R.item_held ≠ some item_id) :
    alookup (syncAll poses rids robots items).2.1 item_id = alookup items item_id := by
  revert hno
  induction rids generalizing robots items with
  | nil =>
    intro _
    rfl
  | cons rid rest ih =>
    intro hno
    rw [syncAll]
    show alookup (syncAll poses rest (syncRobot poses rid robots items).1
      (syncRobot poses rid robots items).2.1).2.1 item_id = _
    have hrest : ∀ rid' ∈ rest, ∀ R,
        alookup (syncRobot poses rid robots items).1 rid' = some R →
        R.item_held ≠ some item_id := by
      intro rid' hmem R hR
      have hmap : (alookup (syncRobot poses rid robots items).1 rid').map Robot.item_held =
          (alookup robots rid').map Robot.item_held := by
        rcases syncRobot_fst poses rid robots items with heq | ⟨rx, ry, heq⟩
        · rw [heq]
        · rw [heq, alookup_aupdate_map robots rid rid'
            (fun r => { r with x := rx, y := ry }) Robot.item_held fun a => rfl]
      rw [hR] at hmap
      rcases hR' : alookup robots rid' with _ | R'
      · rw [hR'] at hmap
        cases hmap
      · rw [hR'] at hmap
        simp only [Option.map_some'] at hmap
        rw [Option.some.inj hmap]
        exact hno rid' (List.mem_cons_of_mem _ hmem) R' hR'
    rw [ih _ _ hrest]
    rcases syncRobot_snd poses rid robots items with heq | ⟨iid₀, rx, ry, ⟨robot, hrob, hheld⟩, heq⟩
    · rw [heq]
    · rw [heq]
      have hne : item_id ≠ iid₀ := by
        intro hcontra
        subst hcontra
        exact hno rid (List.mem_cons_self _ _) robot hrob hheld
      exact alookup_aupdate_ne _ _ hne

theorem discoverRobots_lookup (robots : List (String × Robot)) (names : List String)
    (rid : String) :
    alookup (discoverRobots robots names) rid = alookup robots rid ∨
    (alookup robots rid = none ∧
      alookup (discoverRobots robots names) rid = some ⟨0, 0, none, none⟩) := by
  induction names generalizing robots with
  | nil => exact Or.inl rfl
  | cons n rest ih =>
    rw [discoverRobots]
    by_cases hc : (containsRobot n && (alookup robots n).isNone) = true
    · rw [if_pos hc]
      rcases ih (robots ++ [(n, ⟨0, 0, none, none⟩)]) with h | ⟨hn, h⟩
      · rcases hr : alookup robots rid with _ | R
        · by_cases hrn : n = rid
          · subst hrn
            right
            refine ⟨rfl, ?_⟩
            rw [h, alookup_append_right _ hr]
            simp [alookup]
          · left
            rw [h, alookup_append_right _ hr]
            simp [alookup, hrn]
        · left
          rw [h, alookup_append_left _ hr]
      · right
        have hbase : alookup robots rid = none := by
          rcases hr : alookup robots rid with _ | R
          · rfl
          · rw [alookup_append_left _ hr] at hn
            cases hn
        exact ⟨hbase, h⟩
    · rw [if_neg hc]
      exact ih robots

theorem discoverRobots_pres {robots : List (String × Robot)} {names : List String}
    {rid : String} {R : Robot} (h : alookup robots rid = some R) :
    alookup (discoverRobots robots names) rid = some R := by
  rcases discoverRobots_lookup robots names rid with heq | ⟨hn, _⟩
  · rw [heq, h]
  · rw [h] at hn
    cases hn

/-- Claim C9 (amended): one post-seeding tick leaves every zone tally, the
cluster registry, the cluster counter, every item's colour and owning-cluster
association, and the coordinates of items held by no robot unchanged, and
preserves every tracked robot's held-item fields; besides robot coordinates
and held-item coordinates, the tick also increments the internal item-id
counter (the "ready" marker spawn goes through `spawn_item`) and may add
backend-discovered robots. -/
theorem claim_C9_idle_tick (s : State) (inp : TickInput) (hfr : s.first_run = false)
    (out : State × List BackendCall × List ItemHolderMsg × ItemLogMsg)
    (h : control_loop s inp = some out) :
    out.1.zones = s.zones ∧
    out.1.clusters = s.clusters ∧
    out.1.cluster_counter = s.cluster_counter ∧
    out.1.item_counter = s.item_counter + 1 ∧
    out.1.first_run = false ∧
    out.1.items.map Prod.fst = s.items.map Prod.fst ∧
    (∀ item_id, (alookup out.1.items item_id).map Item.colour =
      (alookup s.items item_id).map Item.colour) ∧
    (∀ item_id, (alookup out.1.items item_id).map Item.cluster_id =
      (alookup s.items item_id).map Item.cluster_id) ∧
    (∀ item_id, (∀ p ∈ s.robots, p.2.item_held ≠ some item_id) →
      alookup out.1.items item_id = alookup s.items item_id) ∧
    (∀ robot_id R, alookup s.robots robot_id = some R →
      ∃ R', alookup out.1.robots robot_id = some R' ∧
        R'.item_held = R.item_held ∧ R'.previous_item_held = R.previous_item_held) := by
  rw [control_loop_out_not_first hfr h]
  refine ⟨rfl, rfl, rfl, rfl, rfl, ?_, ?_, ?_, ?_, ?_⟩
  · exact syncAll_items_keys inp.poses _ _ s.items
  · intro item_id
    exact syncAll_items_map Item.colour (fun it ix iy => rfl) inp.poses _ _ s.items item_id
  · intro item_id
    exact syncAll_items_map Item.cluster_id (fun it ix iy => rfl) inp.poses _ _ s.items item_id
  · intro item_id hno
    apply syncAll_items_unheld
    intro rid _ R hR
    rcases discoverRobots_lookup s.robots inp.model_names rid with heq | ⟨_, hnew⟩
    · rw [heq] at hR
      exact hno (rid, R) (alookup_mem hR)
    · rw [hnew] at hR
      rw [← Option.some.inj hR]
      intro hcontra
      cases hcontra
  · intro robot_id R hR
    have hdisc := @discoverRobots_pres s.robots inp.model_names robot_id R hR
    have h₁ := syncAll_robots_map Robot.item_held (fun r rx ry => rfl) inp.poses
      ((discoverRobots s.robots inp.model_names).map (·.1))
      (discoverRobots s.robots inp.model_names) s.items robot_id
    have h₂ := syncAll_robots_map Robot.previous_item_held (fun r rx ry => rfl) inp.poses
      ((discoverRobots s.robots inp.model_names).map (·.1))
      (discoverRobots s.robots inp.model_names) s.items robot_id
    rw [hdisc] at h₁ h₂
    rcases hlook : alookup (syncAll inp.poses
        ((discoverRobots s.robots inp.model_names).map (·.1))
        (discoverRobots s.robots inp.model_names) s.items).1 robot_id with _ | R'
    · rw [hlook] at h₁
      cases h₁
    · rw [hlook] at h₁ h₂
      simp only [Option.map_some'] at h₁ h₂
      exact ⟨R', hlook, Option.some.inj h₁, Option.some.inj h₂⟩

/-- Counterexample for C9 as stated: one idle tick from `sC9` (seeding done,
no request in between) changes more than robot and held-item coordinates —
the item-id counter is incremented by the "ready" marker spawn, and a newly
listed robot is added to the tracked set. -/
theorem claim_C9_counterexample :
    sC9.first_run = false ∧
    control_loop sC9 inpC9 = some outC9 ∧
    outC9.1.item_counter = sC9.item_counter + 1 ∧
    outC9.1.item_counter ≠ sC9.item_counter ∧
    alookup sC9.robots "robot9" = none ∧
    alookup outC9.1.robots "robot9" = some ⟨1, 1, none, none⟩ := by
  refine ⟨rfl, ?_, ?_, ?_, rfl, ?_⟩ <;> with_unfolding_all decide

/-- Witness for C9 (amended): the idle tick from `sC9` keeps zones, clusters
and the unheld `item0` untouched while bumping the item counter. -/
theorem claim_C9_idle_tick_witness :
    outC9.1.zones = sC9.zones ∧ outC9.1.clusters = sC9.clusters ∧
    outC9.1.item_counter = sC9.item_counter + 1 ∧
    alookup outC9.1.items "item0" = alookup sC9.items "item0" := by
  have h : control_loop sC9 inpC9 = some outC9 := by with_unfolding_all decide
  have hc := claim_C9_idle_tick sC9 inpC9 rfl outC9 h
  exact ⟨hc.1, hc.2.1, hc.2.2.2.1,
    hc.2.2.2.2.2.2.2.2.1 "item0" fun p hp => nomatch hp⟩

end ItemManager
